import Mathlib

/-!
# Kdenlive timeline functions: composite, undoable edit operations

A shallow embedding of `src/timeline2/model/timelinefunctions.cpp`.

The file has three layers.

* The *document model*: clips, tracks, groups and the id counter of a timeline,
  and the global undo history.  The C++ classes behind it (`TimelineModel`,
  `ClipModel`, `TrackModel`, `GroupsModel`, `pCore`) are not part of the
  translated source file; every definition that stands for one of their members
  says so in its doc comment and follows the specification's description.
* The functions of `TimelineFunctions`, translated statement by statement, with
  the shared mutable timeline and the `Fun &undo, Fun &redo` reference
  parameters made explicit as a threaded value of type `Tx`.
* Theorems about the translated functions.

Conventions: ids, positions and durations are C++ `int`s and are represented by
`Int`; `-1` is the usual "none" id.  The sums `start + duration` of the two
span tests (source lines 61 and 82) are taken in 32-bit two's complement
(`wrapInt`), since the end of an item may lie past the largest `int`.
A read of an id that is not registered yields the fields of `Clip.absent`, a
write to such an id is dropped; where the source would dereference such an
entry (after a failed creation in `copyClip`), its behaviour is undefined: the
model is faithful when the creation succeeds, and the rollback statement of
`requestClipCopy` assumes that it does.  Iteration over a `std::unordered_set`
is represented by iteration over a list in the order the model stores the ids.
-/

namespace Kdenlive

/-! ## Machine integers -/

/-- The value is a C++ `int` (32 bits, two's complement). -/
def IsInt (v : Int) : Prop := -2147483648 ≤ v ∧ v ≤ 2147483647

instance (v : Int) : Decidable (IsInt v) := by
  unfold IsInt; infer_instance

/-- The `int` a 32-bit two's complement machine yields for the exact value `v`
of a sum of two `int`s: `v` itself when it is in range, `v` minus or plus
`2^32` when the sum overflows. -/
def wrapInt (v : Int) : Int := (v + 2147483648) % 4294967296 - 2147483648

/-! ## Document model -/

namespace PlaylistState

/-- Modelled from the spec: the "state tag" of an item (`PlaylistState::ClipState`),
which tells which media channel the item presents.  The source names the values
`VideoOnly` and `AudioOnly`. -/
inductive ClipState
  | Original
  | VideoOnly
  | AudioOnly
  | Disabled
  deriving DecidableEq

end PlaylistState

open PlaylistState (ClipState)

/-- Modelled from the spec: an item of the timeline (`ClipModel`): the media it
references, its state tag, track membership (`-1` for none), start position,
trim offset and duration, plus the data that `copyClip` transfers by hand. -/
structure Clip where
  binId : Int
  state : ClipState
  track : Int
  position : Int
  inPoint : Int
  playtime : Int
  endlessResize : Bool
  properties : Int
  effects : List Int
  deriving DecidableEq

/-- What a read of an unregistered id yields. -/
def Clip.absent : Clip :=
  { binId := -1, state := ClipState.Original, track := -1, position := 0, inPoint := 0,
    playtime := 0, endlessResize := false, properties := 0, effects := [] }

/-- Modelled from the spec: the timeline document (`TimelineItemModel`).
`bin` gives the media length of every bin clip, `tracks` is `m_allTracks`
(track ids in track order), `clips` is `m_allClips`, `groups` is the group
tree as child-to-parent links, `nextId` is the id counter. -/
structure Timeline where
  bin : List (Int × Int)
  tracks : List Int
  clips : List (Int × Clip)
  groups : List (Int × Int)
  nextId : Int
  deriving DecidableEq

/-- The C++ type `Fun = std::function<bool(void)>`: a closure over the shared
timeline that mutates it and reports success. -/
abbrev Fun := Timeline → Bool × Timeline

/-- The closure `[]() { return true; }`. -/
def Fun.noop : Fun := fun s => (true, s)

/-- Modelled from the spec: an entry of the global undo history (`pCore->pushUndo`):
a label plus an (undo, redo) pair. -/
structure Command where
  label : String
  undo : Fun
  redo : Fun

/-- The global undo history, oldest entry first. -/
abbrev History := List Command

/-- Modelled from the spec: `pCore->pushUndo(undo, redo, text)` appends one
labelled entry to the global history. -/
def pushUndo (h : History) (undo redo : Fun) (text : String) : History :=
  h ++ [{ label := text, undo := undo, redo := redo }]

/-- The timeline together with the running `Fun &undo, Fun &redo` pair of a
composite operation. -/
structure Tx where
  timeline : Timeline
  undo : Fun
  redo : Fun

/-- The start of an undoable command:
`undo = []() { return true; }; redo = []() { return true; };`. -/
def Tx.start (t : Timeline) : Tx :=
  { timeline := t, undo := Fun.noop, redo := Fun.noop }

/-- Modelled from the spec: how a step extends the running pair (`UPDATE_UNDO_REDO`):
the new step's undo runs before the prior accumulated undo, the new step's redo
runs after the prior accumulated redo; the result is the conjunction. -/
def updateUndoRedo (operation reverse : Fun) (x : Tx) (t' : Timeline) : Tx :=
  { timeline := t'
    undo := fun s =>
      let v := reverse s
      let u := x.undo v.2
      (u.1 && v.1, u.2)
    redo := fun s =>
      let v := x.redo s
      let o := operation v.2
      (o.1 && v.1, o.2) }

/-- A write to the shared timeline that is not recorded in the running pair. -/
def Tx.write (x : Tx) (f : Timeline → Timeline) : Tx :=
  { x with timeline := f x.timeline }

/-- The C++ idiom `res = res && step(...)`: the step runs only if the result
so far is true. -/
def andAlso (r : Bool × Tx) (step : Tx → Bool × Tx) : Bool × Tx :=
  if r.1 then step r.2 else (false, r.2)

/-- A request to a primitive of the item model. -/
inductive Request
  | create (binId : Int) (state : ClipState)
  | resize (itemId size : Int) (right : Bool)
  | move (clipId trackId position : Int)
  | delete (clipId : Int)
  | group (ids : List Int)
  | ungroup (id : Int)
  | groupMove (groupId deltaTrack deltaPos : Int)
  | split (root : Int)
  | copyGroups (sources : List Int)
  | setState (clipId : Int) (state : ClipState)
  deriving DecidableEq

/-- Modelled from the spec: the primitives are external collaborators that
"return success/failure"; the spec names some causes of failure (conflict with
a neighbour, track out of range) and leaves the others open.  `veto` stands for
the causes that are left open: a vetoed request fails without any mutation. -/
structure Env where
  veto : Request → Bool

/-- The environment in which no request is refused for an unnamed cause. -/
def Env.permissive : Env := { veto := fun _ => false }

/-! ### Clip store -/

/-- Lookup in `m_allClips`. -/
def findClip : List (Int × Clip) → Int → Option Clip
  | [], _ => none
  | p :: rest, id => if p.1 = id then some p.2 else findClip rest id

/-- Apply `f` to the clip registered under `id` (nothing happens if there is none). -/
def modifyClips (f : Clip → Clip) (id : Int) : List (Int × Clip) → List (Int × Clip)
  | [] => []
  | p :: rest => (if p.1 = id then (p.1, f p.2) else p) :: modifyClips f id rest

/-- Remove the clip registered under `id`. -/
def eraseClips (id : Int) : List (Int × Clip) → List (Int × Clip)
  | [] => []
  | p :: rest => if p.1 = id then eraseClips id rest else p :: eraseClips id rest

/-- The clip behind `m_allClips[id]`. -/
def Timeline.clip (t : Timeline) (id : Int) : Clip :=
  (findClip t.clips id).getD Clip.absent

/-- `TimelineModel::isClip`. -/
def isClip (t : Timeline) (id : Int) : Bool :=
  (findClip t.clips id).isSome

/-- A mutation of one clip in place. -/
def Timeline.modify (t : Timeline) (id : Int) (f : Clip → Clip) : Timeline :=
  { t with clips := modifyClips f id t.clips }

/-- `registerClip`: enter a clip into `m_allClips`. -/
def Timeline.register (t : Timeline) (id : Int) (c : Clip) : Timeline :=
  { t with clips := t.clips ++ [(id, c)] }

/-- `deregisterClip`: remove a clip from `m_allClips`. -/
def Timeline.deregister (t : Timeline) (id : Int) : Timeline :=
  { t with clips := eraseClips id t.clips }

/-! ### Queries of the item model (modelled from the spec) -/

/-- Modelled from the spec: `getClipBinId`, the media an item references. -/
def getClipBinId (t : Timeline) (clipId : Int) : Int := (t.clip clipId).binId

/-- Modelled from the spec: `getClipPosition`, query an item's start position. -/
def getClipPosition (t : Timeline) (clipId : Int) : Int := (t.clip clipId).position

/-- Modelled from the spec: `getClipPlaytime`, query an item's duration. -/
def getClipPlaytime (t : Timeline) (clipId : Int) : Int := (t.clip clipId).playtime

/-- Modelled from the spec: `getClipTrackId`, query an item's track (`-1` for none). -/
def getClipTrackId (t : Timeline) (clipId : Int) : Int := (t.clip clipId).track

/-- Modelled from the spec: `getItemPosition`; every item of this model is a clip. -/
def getItemPosition (t : Timeline) (itemId : Int) : Int := getClipPosition t itemId

/-- Modelled from the spec: `getItemPlaytime`; every item of this model is a clip. -/
def getItemPlaytime (t : Timeline) (itemId : Int) : Int := getClipPlaytime t itemId

/-- Modelled from the spec: `getItemTrackId`; every item of this model is a clip. -/
def getItemTrackId (t : Timeline) (itemId : Int) : Int := getClipTrackId t itemId

/-- Modelled from the spec: `m_allClips[id]->clipState()`. -/
def clipState (t : Timeline) (clipId : Int) : ClipState := (t.clip clipId).state

/-- Modelled from the spec: `m_allClips[id]->getIn()`, the trim offset. -/
def getIn (t : Timeline) (clipId : Int) : Int := (t.clip clipId).inPoint

/-- Position of `x` in a list (the length of the list when it is missing). -/
def indexOfId (x : Int) : List Int → Nat
  | [] => 0
  | y :: rest => if y = x then 0 else indexOfId x rest + 1

/-- Modelled from the spec: `getTrackPosition`, the position index of a track
among all tracks ("query track ordering"). -/
def getTrackPosition (t : Timeline) (trackId : Int) : Int := (indexOfId trackId t.tracks : Nat)

/-- Modelled from the spec: `getTracksCount` ("query track ... count"). -/
def getTracksCount (t : Timeline) : Int := (t.tracks.length : Nat)

/-- The id of the track at a position index (`std::advance` over `m_allTracks`,
then `getId()`). -/
def trackAt (t : Timeline) (trackPosition : Int) : Int :=
  t.tracks.getD trackPosition.toNat (-1)

/-- Media length of a bin clip. -/
def binLength : List (Int × Int) → Int → Option Int
  | [], _ => none
  | p :: rest, binId => if p.1 = binId then some p.2 else binLength rest binId

/-- Does the span `[pos, pos + len)` on `track` meet a clip that is not among
`moved`?  Tracks hold non-overlapping items. -/
def collides (clips : List (Int × Clip)) (moved : List Int) (track pos len : Int) : Bool :=
  clips.any fun p =>
    !(moved.contains p.1) && (p.2.track == track)
      && decide (pos < p.2.position + p.2.playtime) && decide (p.2.position < pos + len)

/-! ### Primitives of the item model (modelled from the spec) -/

/-- The clip a creation registers: not yet on a track, untrimmed, as long as
the media. -/
def created (binClipId : Int) (state : ClipState) (len : Int) : Clip :=
  { binId := binClipId, state := state, track := -1, position := -1, inPoint := 0,
    playtime := len, endlessResize := false, properties := 0, effects := [] }

/-- Modelled from the spec: `requestClipCreation` ("create item"): a new item with a
fresh id referencing the given media with the requested state, not yet on a
track, untrimmed, as long as the media.  Fails when the bin has no such media
or on a veto; `id` (an `int &` in C++) is assigned on success only. -/
def requestClipCreation (E : Env) (x : Tx) (binClipId : Int) (id : Int) (state : ClipState) :
    Bool × Int × Tx :=
  match binLength x.timeline.bin binClipId with
  | none => (false, id, x)
  | some len =>
    if E.veto (Request.create binClipId state) then (false, id, x)
    else
      let clipId := x.timeline.nextId
      let clip : Clip := created binClipId state len
      let operation : Fun := fun s => (true, s.register clipId clip)
      let reverse : Fun := fun s => (true, s.deregister clipId)
      (true, clipId,
        updateUndoRedo operation reverse x
          { x.timeline.register clipId clip with nextId := clipId + 1 })

/-- The clip an accepted resize leaves behind: "Resizing changes duration and, if
resizing from the left edge, also its internal trim offset and position" (the
position of an item that is on a track). -/
def resized (c : Clip) (size : Int) (right : Bool) : Clip :=
  { c with
    inPoint := if right then c.inPoint else c.inPoint + (c.playtime - size)
    position := if right ∨ c.track = -1 then c.position else c.position + (c.playtime - size)
    playtime := size }

/-- Modelled from the spec: `requestItemResize` ("resize item"): "Resizing changes
duration and, if resizing from the left edge, also its internal trim offset and
position".  Fails for an unknown item, a non-positive size, a veto, or when
the target "conflicts with a neighbor" on the item's track. -/
def requestItemResize (E : Env) (x : Tx) (itemId size : Int) (right : Bool) (_logUndo : Bool) :
    Bool × Tx :=
  match findClip x.timeline.clips itemId with
  | none => (false, x)
  | some c =>
    if size ≤ 0 ∨ E.veto (Request.resize itemId size right) = true then (false, x)
    else if c.track ≠ -1
        ∧ collides x.timeline.clips [itemId] c.track (resized c size right).position size = true
      then (false, x)
    else
      let operation : Fun := fun s =>
        (true, s.modify itemId fun k =>
          { k with inPoint := (resized c size right).inPoint,
                   position := (resized c size right).position, playtime := size })
      let reverse : Fun := fun s =>
        (true, s.modify itemId fun k =>
          { k with inPoint := c.inPoint, position := c.position, playtime := c.playtime })
      (true, updateUndoRedo operation reverse x (operation x.timeline).2)

/-- Modelled from the spec: `requestClipMove` with a running undo/redo pair ("move
item"): put the item on the given track at the given position.  Fails for an
unknown item, an unknown track, a veto, or when the span is not free on the
target track. -/
def requestClipMove (E : Env) (x : Tx) (clipId trackId position : Int)
    (_updateView _invalidateTimeline : Bool) : Bool × Tx :=
  match findClip x.timeline.clips clipId with
  | none => (false, x)
  | some c =>
    if trackId ∉ x.timeline.tracks ∨ E.veto (Request.move clipId trackId position) = true
        ∨ collides x.timeline.clips [clipId] trackId position c.playtime = true then (false, x)
    else
      let operation : Fun := fun s =>
        (true, s.modify clipId fun k => { k with track := trackId, position := position })
      let reverse : Fun := fun s =>
        (true, s.modify clipId fun k => { k with track := c.track, position := c.position })
      (true, updateUndoRedo operation reverse x (operation x.timeline).2)

/-- Modelled from the spec: `ClipModel::passTimelineProperties`: "copy all
source-specific timeline properties ... onto the copy" (not undoable). -/
def passTimelineProperties (t : Timeline) (clipId newId : Int) : Timeline :=
  t.modify newId fun k => { k with properties := (t.clip clipId).properties }

/-- Modelled from the spec: `EffectStackModel::importEffects`: "Copy the
effect/processing stack from source to the new item" (not undoable). -/
def importEffects (t : Timeline) (clipId newId : Int) : Timeline :=
  t.modify newId fun k => { k with effects := k.effects ++ (t.clip clipId).effects }

/-- Modelled from the spec: `ClipModel::setClipState`: set the state tag of an item.
Fails for an unknown item or on a veto. -/
def setClipState (E : Env) (t : Timeline) (clipId : Int) (state : ClipState) : Bool × Timeline :=
  if isClip t clipId = true ∧ E.veto (Request.setState clipId state) = false then
    (true, t.modify clipId fun k => { k with state := state })
  else (false, t)

/-- Modelled from the spec: the refresh folded into both directions of a state change
(`replugClip`, `dataChanged`, `invalidateClip`, `checkRefresh`): it concerns the
rendering of the track, an external collaborator, and leaves the document as it is. -/
def replugAndRefresh (t : Timeline) (_trackId _clipId _start _end : Int) : Timeline := t

/-- Modelled from the spec: `getNextTrackId`, the track adjacent to a track in track
order (`-1` when there is none). -/
def getNextTrackId (t : Timeline) (trackId : Int) : Int :=
  trackAt t (getTrackPosition t trackId + 1)

/-- Modelled from the spec: `getClipByPosition`: the item of a track whose span holds
the position (`-1` when there is none). -/
def getClipByPosition (t : Timeline) (trackId position : Int) : Int :=
  match t.clips.find? fun p =>
      (p.2.track == trackId) && decide (p.2.position ≤ position)
        && decide (position < p.2.position + p.2.playtime) with
  | some p => p.1
  | none => -1

/-- Modelled from the spec: `getItemsAfterPosition(trackId, position, end, _)`: "get
items after a given position on a track (optionally across all tracks)": the
items on a track (any track for `trackId = -1`) "starting at or after" the
position and, unless `end = -1` ("unbounded upper end"), lying up to the frame
`end` (for a zone `[x, y)` called with `x` and `y - 1`: the items "fully
contained within" the zone). -/
def getItemsAfterPosition (t : Timeline) (trackId position end_ : Int)
    (_listCompositions : Bool) : List Int :=
  (t.clips.filter fun p =>
      (p.2.track != -1) && (trackId == -1 || p.2.track == trackId)
        && decide (position ≤ p.2.position)
        && (end_ == -1 || decide (p.2.position + p.2.playtime - 1 ≤ end_))).map Prod.fst

/-! ### Group hierarchy (modelled from the spec) -/

/-- Lookup of the parent link of a node (`m_upLink`). -/
def parentOf : List (Int × Int) → Int → Option Int
  | [], _ => none
  | p :: rest, id => if p.1 = id then some p.2 else parentOf rest id

/-- Follow parent links upwards, at most `fuel` times. -/
def rootFrom (g : List (Int × Int)) : Nat → Int → Int
  | 0, id => id
  | fuel + 1, id =>
    match parentOf g id with
    | none => id
    | some p => rootFrom g fuel p

/-- Modelled from the spec: `GroupsModel::getRootId`: "the top group an item belongs
to, or the item itself if ungrouped".  A path in the tree is no longer than
the number of links. -/
def getRootId (t : Timeline) (id : Int) : Int :=
  rootFrom t.groups t.groups.length id

/-- Modelled from the spec: `GroupsModel::isInGroup`, a lookup: the item has a parent. -/
def isInGroup (t : Timeline) (id : Int) : Bool :=
  (parentOf t.groups id).isSome

/-- The node has children, that is, it is a group. -/
def isGroup (t : Timeline) (id : Int) : Bool :=
  t.groups.any fun p => p.2 == id

/-- Remove repeated ids, keeping the first occurrence. -/
def dedupIds : List Int → List Int
  | [] => []
  | a :: rest => a :: (dedupIds rest).filter fun b => b != a

/-- The items (leaves) below a node of the group tree; the node itself if it
has no children. -/
def getLeaves (t : Timeline) (root : Int) : List Int :=
  if isGroup t root then
    (t.groups.map Prod.fst).filter fun c => !(isGroup t c) && (getRootId t c == root)
  else [root]

/-- Modelled from the spec: `getGroupElements`: the items of the top-level group an
item belongs to (the item alone if it is ungrouped). -/
def getGroupElements (t : Timeline) (clipId : Int) : List Int :=
  getLeaves t (getRootId t clipId)

/-- Modelled from the spec: `GroupsModel::setInGroupOf(itemA, itemB)`: "place itemA
into the same group subtree as itemB"; a `void` function that extends the
running pair. -/
def setInGroupOf (x : Tx) (id targetId : Int) : Tx :=
  let target := parentOf x.timeline.groups targetId
  let previous := parentOf x.timeline.groups id
  let setGroup (group : Option Int) : Fun := fun s =>
    let others := s.groups.filter fun p => p.1 != id
    match group with
    | some g => (true, { s with groups := others ++ [(id, g)] })
    | none => (true, { s with groups := others })
  let operation := setGroup target
  let reverse := setGroup previous
  updateUndoRedo operation reverse x (operation x.timeline).2

/-- Modelled from the spec: `GroupsModel::split(rootId, predicate)`: "partitions the
subtree into two groups such that all items satisfying predicate are together
and the rest are together; fails if the resulting structure would be
inconsistent (e.g., root has no children satisfying the partition)".  Also
fails on a veto. -/
def split (E : Env) (x : Tx) (root : Int) (criterion : Timeline → Int → Bool) : Bool × Tx :=
  let t := x.timeline
  let leaves := getLeaves t root
  let yes := leaves.filter fun c => criterion t c
  let no := leaves.filter fun c => !(criterion t c)
  if isGroup t root = false ∨ yes = [] ∨ no = [] ∨ E.veto (Request.split root) = true then
    (false, x)
  else
    let subtree := t.groups.filter fun p => getRootId t p.1 == root
    let gYes := t.nextId
    let gNo := t.nextId + 1
    let fresh := (yes.map fun c => (c, gYes)) ++ (no.map fun c => (c, gNo))
    let operation : Fun := fun s =>
      (true, { s with groups := (s.groups.filter fun p => !(subtree.contains p)) ++ fresh })
    let reverse : Fun := fun s =>
      (true, { s with groups := (s.groups.filter fun p => !(fresh.contains p)) ++ subtree })
    (true, updateUndoRedo operation reverse x { (operation t).2 with nextId := t.nextId + 2 })

/-- Modelled from the spec: `GroupsModel::copyGroups(mapping)`: "given a mapping from
source item id to newly-created copy id ..., reconstructs an equivalent group
hierarchy over the copy ids mirroring the source hierarchy; fails if mapping is
incomplete for a group that must remain connected".  Also fails on a veto. -/
def copyGroups (E : Env) (x : Tx) (mapping : List (Int × Int)) : Bool × Tx :=
  let t := x.timeline
  let sources := mapping.map Prod.fst
  let roots := dedupIds (sources.map (getRootId t))
  let links := t.groups.filter fun p => roots.contains (getRootId t p.1)
  let groupIds := dedupIds (links.map Prod.snd)
  let items := (links.map Prod.fst).filter fun c => !(groupIds.contains c)
  if (items.all fun c => sources.contains c) = false
      ∨ E.veto (Request.copyGroups sources) = true then (false, x)
  else
    let translate (id : Int) : Int :=
      if groupIds.contains id then t.nextId + (indexOfId id groupIds : Nat)
      else (parentOf mapping id).getD (-1)
    let fresh := links.map fun p => (translate p.1, translate p.2)
    let operation : Fun := fun s => (true, { s with groups := s.groups ++ fresh })
    let reverse : Fun := fun s =>
      (true, { s with groups := s.groups.filter fun p => !(fresh.contains p) })
    (true, updateUndoRedo operation reverse x
      { (operation t).2 with nextId := t.nextId + (groupIds.length : Nat) })

/-- Modelled from the spec: `requestClipsGroup(ids, undo, redo)`: "group ... a set of
ids (returns a group id or failure sentinel)": a new group above the roots of
the ids; ids that already have one common root need no new group and that
root is returned ("If only one item is involved, skip the group/ungroup
wrapper").  Fails (`-1`) for an empty set, for an id that is not an item, or
on a veto. -/
def requestClipsGroup (E : Env) (x : Tx) (ids : List Int) : Int × Tx :=
  let t := x.timeline
  let roots := dedupIds (ids.map (getRootId t))
  if ids = [] ∨ (ids.all fun i => isClip t i) = false ∨ E.veto (Request.group ids) = true then
    (-1, x)
  else if roots.length = 1 then (roots.headD (-1), x)
  else
    let gid := t.nextId
    let operation : Fun := fun s =>
      (true, { s with groups := s.groups ++ roots.map fun r => (r, gid) })
    let reverse : Fun := fun s =>
      (true, { s with groups := s.groups.filter fun p => p.2 != gid })
    (gid, updateUndoRedo operation reverse x { (operation t).2 with nextId := gid + 1 })

/-- Modelled from the spec: `requestClipUngroup(id, undo, redo)`: "ungroup": dissolve
the top group the item belongs to.  Fails for an ungrouped item or on a veto. -/
def requestClipUngroup (E : Env) (x : Tx) (id : Int) : Bool × Tx :=
  let t := x.timeline
  let gid := getRootId t id
  if isGroup t gid = false ∨ E.veto (Request.ungroup id) = true then (false, x)
  else
    let children := t.groups.filter fun p => p.2 == gid
    let operation : Fun := fun s =>
      (true, { s with groups := s.groups.filter fun p => p.2 != gid })
    let reverse : Fun := fun s => (true, { s with groups := s.groups ++ children })
    (true, updateUndoRedo operation reverse x (operation t).2)

/-- One planned displacement of a group move: item, old track and position, new
track and position. -/
structure Displacement where
  id : Int
  oldTrack : Int
  oldPos : Int
  newTrack : Int
  newPos : Int
  deriving DecidableEq

/-- Modelled from the spec: `requestGroupMove(clipId, groupId, delta_track, delta_pos, ..)`:
"move the group ... by the net delta": every item of the group is shifted by
the same track and position deltas.  Fails on a veto, when a target track is
out of range, or when a moved item would meet an item that stays. -/
def requestGroupMove (E : Env) (x : Tx) (_clipId groupId delta_track delta_pos : Int)
    (_updateView _finalMove : Bool) : Bool × Tx :=
  let t := x.timeline
  let items := (getLeaves t groupId).filter fun i => isClip t i
  let plan : List Displacement := items.map fun i =>
    { id := i, oldTrack := getClipTrackId t i, oldPos := getClipPosition t i,
      newTrack := trackAt t (getTrackPosition t (getClipTrackId t i) + delta_track),
      newPos := getClipPosition t i + delta_pos }
  let inRange (d : Displacement) : Bool :=
    decide (0 ≤ getTrackPosition t d.oldTrack + delta_track)
      && decide (getTrackPosition t d.oldTrack + delta_track < getTracksCount t)
  let free (d : Displacement) : Bool :=
    !(collides t.clips items d.newTrack d.newPos (getClipPlaytime t d.id))
  if E.veto (Request.groupMove groupId delta_track delta_pos) = true
      ∨ (plan.all fun d => inRange d && free d) = false then (false, x)
  else
    let operation : Fun := fun s =>
      (true, plan.foldl (fun acc d =>
        acc.modify d.id fun k => { k with track := d.newTrack, position := d.newPos }) s)
    let reverse : Fun := fun s =>
      (true, plan.foldl (fun acc d =>
        acc.modify d.id fun k => { k with track := d.oldTrack, position := d.oldPos }) s)
    (true, updateUndoRedo operation reverse x (operation t).2)

/-- Modelled from the spec: `requestClipDeletion(clipId, undo, redo)` ("delete item"):
the item leaves its track, the clip store and its group.  Fails for an unknown
item or on a veto. -/
def requestClipDeletion (E : Env) (x : Tx) (clipId : Int) : Bool × Tx :=
  match findClip x.timeline.clips clipId with
  | none => (false, x)
  | some c =>
    if E.veto (Request.delete clipId) = true then (false, x)
    else
      let link := x.timeline.groups.filter fun p => p.1 == clipId
      let operation : Fun := fun s =>
        (true, { s.deregister clipId with groups := s.groups.filter fun p => p.1 != clipId })
      let reverse : Fun := fun s =>
        (true, { s.register clipId c with groups := s.groups ++ link })
      (true, updateUndoRedo operation reverse x (operation x.timeline).2)

/-- Modelled from the spec: `requestClipInsertion(binClipId, trackId, position, id, ..)`:
"create and place a new item referencing the specified sub-range of the media
source".  The composite key `<source-id>#<range-start>#<range-end-inclusive>`
is given as a triple.  A failed placement takes the creation back. -/
def requestClipInsertion (E : Env) (x : Tx) (binClipId : Int × Int × Int)
    (trackId position : Int) (id : Int) (_logUndo _refreshView : Bool) : Bool × Int × Tx :=
  let r := requestClipCreation E (Tx.start x.timeline) binClipId.1 id ClipState.Original
  if r.1 = false then (false, id, x)
  else
    let newId := r.2.1
    let ranged := r.2.2.timeline.modify newId fun k =>
      { k with inPoint := binClipId.2.1, playtime := binClipId.2.2 - binClipId.2.1 + 1 }
    let m := requestClipMove E { r.2.2 with timeline := ranged } newId trackId position true true
    if m.1 = false then (false, newId, { x with timeline := (m.2.undo m.2.timeline).2 })
    else (true, newId, updateUndoRedo m.2.redo m.2.undo x m.2.timeline)

/-! ### Entry points of the item model that register history themselves -/

/-- Modelled from the spec: `requestClipMove(clipId, trackId, position, updateView, logUndo)`,
the entry point without a running pair: a grouped item moves with its whole
group ("Move the transient group back to its pre-drag position"); history is
registered only for `logUndo`. -/
def requestClipMoveLogged (E : Env) (t : Timeline) (h : History)
    (clipId trackId position : Int) (updateView logUndo : Bool) : Bool × Timeline × History :=
  if getClipPosition t clipId = position ∧ getClipTrackId t clipId = trackId then (true, t, h)
  else if isInGroup t clipId then
    let groupId := getRootId t clipId
    let delta_track := getTrackPosition t trackId - getTrackPosition t (getClipTrackId t clipId)
    let delta_pos := position - getClipPosition t clipId
    let r := requestGroupMove E (Tx.start t) clipId groupId delta_track delta_pos updateView logUndo
    (r.1, r.2.timeline,
      if r.1 && logUndo then pushUndo h r.2.undo r.2.redo "Move group" else h)
  else
    let r := requestClipMove E (Tx.start t) clipId trackId position updateView logUndo
    (r.1, r.2.timeline,
      if r.1 && logUndo then pushUndo h r.2.undo r.2.redo "Move clip" else h)

/-- Modelled from the spec: `requestClipsGroup(ids, logUndo)`, the entry point without
a running pair ("group them transiently (non-undoable grouping ...)" for
`logUndo = false`); history is registered only for `logUndo`. -/
def requestClipsGroupLogged (E : Env) (t : Timeline) (h : History) (ids : List Int)
    (logUndo : Bool) : Int × Timeline × History :=
  let r := requestClipsGroup E (Tx.start t) ids
  (r.1, r.2.timeline,
    if decide (r.1 > -1) && logUndo then pushUndo h r.2.undo r.2.redo "Group clips" else h)

/-- Modelled from the spec: `requestClipUngroup(id, logUndo)`, the entry point without
a running pair; history is registered only for `logUndo`. -/
def requestClipUngroupLogged (E : Env) (t : Timeline) (h : History) (id : Int)
    (logUndo : Bool) : Bool × Timeline × History :=
  let r := requestClipUngroup E (Tx.start t) id
  (r.1, r.2.timeline,
    if r.1 && logUndo then pushUndo h r.2.undo r.2.redo "Ungroup clips" else h)

/-! ## `TimelineFunctions` -/

namespace TimelineFunctions

/-- The block of `copyClip` that trims the copy to the source (source lines
41-47); `res` is the result so far. -/
def copyClipTrim (E : Env) (x : Tx) (clipId newId : Int) (res : Bool) : Bool × Tx :=
  let duration := getClipPlaytime x.timeline clipId
  let init_duration := getClipPlaytime x.timeline newId
  if duration ≠ init_duration then
    let inPoint := getIn x.timeline clipId
    andAlso
      (andAlso (res, x) fun y => requestItemResize E y newId (init_duration - inPoint) false true)
      fun y => requestItemResize E y newId duration true true
  else (res, x)

/-- `TimelineFunctions::copyClip` (source lines 34-55).  Returns the result, the
value of the reference parameter `newId`, and the threaded state.  After a
failed creation the source dereferences the missing entry `m_allClips[newId]`
(lines 37 and 39) before it tests `res`: that path is undefined behaviour and
lies outside this model, which is faithful when the creation succeeds. -/
def copyClip (E : Env) (x : Tx) (clipId : Int) (newId : Int) (state : ClipState) :
    Bool × Int × Tx :=
  let r := requestClipCreation E x (getClipBinId x.timeline clipId) newId state
  let res := r.1
  let newId := r.2.1
  -- timeline->m_allClips[newId]->m_endlessResize = timeline->m_allClips[clipId]->m_endlessResize;
  let x1 := r.2.2.write fun t =>
    t.modify newId fun k => { k with endlessResize := (t.clip clipId).endlessResize }
  -- copy useful timeline properties
  let x2 := x1.write fun t => passTimelineProperties t clipId newId
  let r2 := copyClipTrim E x2 clipId newId res
  if r2.1 = false then (false, newId, r2.2)
  else (r2.1, newId, r2.2.write fun t => importEffects t clipId newId)

/-- `TimelineFunctions::requestClipCut(timeline, clipId, position, newId, undo, redo)`
(source lines 57-71): cut one item at a position. -/
def requestClipCut (E : Env) (x : Tx) (clipId position : Int) (newId : Int) :
    Bool × Int × Tx :=
  let start := getClipPosition x.timeline clipId
  let duration := getClipPlaytime x.timeline clipId
  if start > position ∨ wrapInt (start + duration) < position then (false, newId, x)
  else
    let state := clipState x.timeline clipId
    let r := copyClip E x clipId newId state
    let newId := r.2.1
    let a := andAlso (r.1, r.2.2) fun y =>
      requestItemResize E y clipId (position - start) true true
    let newDuration := getClipPlaytime a.2.timeline clipId
    let b := andAlso a fun y => requestItemResize E y newId (duration - newDuration) false true
    let c := andAlso b fun y =>
      requestClipMove E y newId (getClipTrackId y.timeline clipId) position true false
    (c.1, newId, c.2)

/-- State of the loop of the user-facing `requestClipCut`: `completed` is false
when the function returned from inside the loop. -/
structure CutLoop where
  completed : Bool
  tx : Tx
  count : Int

/-- The loop `for (int cid : clips)` of the user-facing `requestClipCut`
(source lines 79-94).  `int newId;` is uninitialised in C++; `-1` stands for
its value. -/
def requestClipCutLoop (E : Env) (position : Int) : List Int → Tx → Int → CutLoop
  | [], x, count => { completed := true, tx := x, count := count }
  | cid :: rest, x, count =>
    let start := getClipPosition x.timeline cid
    let duration := getClipPlaytime x.timeline cid
    if start < position ∧ wrapInt (start + duration) > position then
      let count := count + 1
      let r := requestClipCut E x cid position (-1)
      if r.1 = false then
        let undone := r.2.2.undo r.2.2.timeline
        { completed := false, tx := { r.2.2 with timeline := undone.2 }, count := count }
      else
        -- splitted elements go temporarily in the same group as original ones.
        let x := setInGroupOf r.2.2 r.2.1 cid
        requestClipCutLoop E position rest x count
    else requestClipCutLoop E position rest x count

/-- The closure `[timeline, position](int cid) { return timeline->getClipPosition(cid) < position; }`
of the user-facing `requestClipCut` (source line 98); it reads the live timeline. -/
def cutCriterion (position : Int) : Timeline → Int → Bool :=
  fun s cid => decide (getClipPosition s cid < position)

/-- `TimelineFunctions::requestClipCut(timeline, clipId, position)` (source lines
73-111), the user-facing cut of an item and its group.  (The C++ name is
overloaded; the six-parameter overload is `requestClipCut` above.) -/
def requestClipCutGroup (E : Env) (t : Timeline) (h : History) (clipId position : Int) :
    Bool × Timeline × History :=
  let x := Tx.start t
  let clips := getGroupElements t clipId
  let l := requestClipCutLoop E position clips x 0
  if l.completed = false then (false, l.tx.timeline, h)
  else
    let x := l.tx
    let count := l.count
    if count > 0 ∧ isInGroup x.timeline clipId = true then
      -- we now split the group hiearchy.
      -- As a splitting criterion, we compare start point with split position
      let criterion := cutCriterion position
      let root := getRootId x.timeline clipId
      let r := split E x root criterion
      if r.1 = false then
        let undone := r.2.undo r.2.timeline
        (false, undone.2, h)
      else
        (decide (count > 0), r.2.timeline,
          if count > 0 then pushUndo h r.2.undo r.2.redo "Cut clip" else h)
    else
      (decide (count > 0), x.timeline,
        if count > 0 then pushUndo h x.undo x.redo "Cut clip" else h)

/-- `TimelineFunctions::requestSpacerStartOperation` (source lines 113-121). -/
def requestSpacerStartOperation (E : Env) (t : Timeline) (h : History)
    (trackId position : Int) : Int × Timeline × History :=
  let clips := getItemsAfterPosition t trackId position (-1) true
  if clips.length > 0 then
    let g := requestClipsGroupLogged E t h clips false
    (clips.headD (-1), g.2.1, g.2.2)
  else (-1, t, h)

/-- `TimelineFunctions::requestSpacerEndOperation` (source lines 123-152). -/
def requestSpacerEndOperation (E : Env) (t : Timeline) (h : History)
    (clipId startPosition endPosition : Int) : Bool × Timeline × History :=
  -- Move group back to original position
  let track := getItemTrackId t clipId
  let m := requestClipMoveLogged E t h clipId track startPosition false false
  let clips := getGroupElements m.2.1 clipId
  -- break group
  let u := requestClipUngroupLogged E m.2.1 m.2.2 clipId false
  let h := u.2.2
  -- Start undoable command
  let x := Tx.start u.2.1
  let g := requestClipsGroup E x clips
  let res := g.1
  let final : Bool × Tx :=
    if res > -1 then
      if clips.length > 1 then
        requestGroupMove E g.2 clipId res 0 (endPosition - startPosition) true true
      else
        -- only 1 clip to be moved
        requestClipMove E g.2 clipId track endPosition true true
    else (false, g.2)
  let final : Bool × Tx :=
    if final.1 = true ∧ clips.length > 1 then requestClipUngroup E final.2 clipId else final
  if final.1 = true then
    (true, final.2.timeline, pushUndo h final.2.undo final.2.redo "Insert space")
  else (false, final.2.timeline, h)

/-- The Qt type `QPoint`, used for a zone `[x, y)`. -/
structure QPoint where
  x : Int
  y : Int
  deriving DecidableEq

/-- `TimelineFunctions::liftZone` (source lines 194-214). -/
def liftZone (E : Env) (x : Tx) (trackId : Int) (zone : QPoint) : Bool × Tx :=
  -- Check if there is a clip at start point
  let startClipId := getClipByPosition x.timeline trackId zone.x
  let x := if startClipId > -1 then
      -- There is a clip, cut it
      (requestClipCut E x startClipId zone.x (-1)).2.2
    else x
  let endClipId := getClipByPosition x.timeline trackId zone.y
  let x := if endClipId > -1 then
      -- There is a clip, cut it
      (requestClipCut E x endClipId zone.y (-1)).2.2
    else x
  let clips := getItemsAfterPosition x.timeline trackId zone.x (zone.y - 1) true
  let x := clips.foldl (fun acc clipId => (requestClipDeletion E acc clipId).2) x
  (true, x)

/-- `TimelineFunctions::removeSpace` (source lines 216-237). -/
def removeSpace (E : Env) (x : Tx) (_trackId : Int) (zone : QPoint) : Bool × Tx :=
  let clips := getItemsAfterPosition x.timeline (-1) (zone.y - 1) (-1) true
  if clips.length > 0 then
    let clipId := clips.headD (-1)
    if clips.length > 1 then
      let g := requestClipsGroup E x clips
      let res := g.1
      if res > -1 then
        let m := requestGroupMove E g.2 clipId res 0 (zone.x - zone.y) true true
        if m.1 = true then requestClipUngroup E m.2 clipId else m
      else (false, g.2)
    else
      -- only 1 clip to be moved
      let clipStart := getItemPosition x.timeline clipId
      requestClipMove E x clipId (getItemTrackId x.timeline clipId)
        (clipStart - (zone.y - zone.x)) true true
  else (false, x)

/-- `TimelineFunctions::insertSpace` (source lines 239-260). -/
def insertSpace (E : Env) (x : Tx) (_trackId : Int) (zone : QPoint) : Bool × Tx :=
  let clips := getItemsAfterPosition x.timeline (-1) zone.x (-1) true
  if clips.length > 0 then
    let clipId := clips.headD (-1)
    if clips.length > 1 then
      let g := requestClipsGroup E x clips
      let res := g.1
      if res > -1 then
        let m := requestGroupMove E g.2 clipId res 0 (zone.y - zone.x) true true
        if m.1 = true then requestClipUngroup E m.2 clipId else m
      else (false, g.2)
    else
      -- only 1 clip to be moved
      let clipStart := getItemPosition x.timeline clipId
      requestClipMove E x clipId (getItemTrackId x.timeline clipId)
        (clipStart + (zone.y - zone.x)) true true
  else (false, x)

/-- The loop `for (int trackId : tracks)` of `extractZone` (source lines 160-165),
threading the local `result`. -/
def extractZoneLoop (E : Env) (zone : QPoint) (liftOnly : Bool) :
    List Int → Tx → Bool → Bool × Tx
  | [], x, result => (result, x)
  | trackId :: rest, x, _ =>
    let r := liftZone E x trackId zone
    let r := if r.1 = true ∧ liftOnly = false then removeSpace E r.2 trackId zone else r
    extractZoneLoop E zone liftOnly rest r.2 r.1

/-- `TimelineFunctions::extractZone` (source lines 154-168). -/
def extractZone (E : Env) (t : Timeline) (h : History) (tracks : List Int) (zone : QPoint)
    (liftOnly : Bool) : Bool × Timeline × History :=
  -- Start undoable command
  let x := Tx.start t
  let r := extractZoneLoop E zone liftOnly tracks x false
  (r.1, r.2.timeline,
    pushUndo h r.2.undo r.2.redo (if liftOnly then "Lift zone" else "Extract zone"))

/-- `TimelineFunctions::insertZone` (source lines 170-192).  Besides the result,
the timeline and the history, the outcome of the `requestClipInsertion` call
(which the C++ code discards) is returned as last component. -/
def insertZone (E : Env) (t : Timeline) (h : History) (trackId : Int) (binId : Int)
    (insertFrame : Int) (zone : QPoint) (overwrite : Bool) : Bool × Timeline × History × Bool :=
  -- Start undoable command
  let x := Tx.start t
  let r : Bool × Tx :=
    if overwrite then
      liftZone E x trackId { x := insertFrame, y := insertFrame + (zone.y - zone.x) }
    else
      let startClipId := getClipByPosition x.timeline trackId insertFrame
      let x := if startClipId > -1 then
          -- There is a clip, cut it
          (requestClipCut E x startClipId insertFrame (-1)).2.2
        else x
      insertSpace E x trackId { x := insertFrame, y := insertFrame + (zone.y - zone.x) }
  let binClipId : Int × Int × Int := (binId, zone.x, zone.y - 1)
  let i := requestClipInsertion E r.2 binClipId trackId insertFrame (-1) true true
  (r.1, i.2.2.timeline,
    pushUndo h i.2.2.undo i.2.2.redo (if overwrite then "Overwrite zone" else "Insert zone"),
    i.1)

/-- The assignment `mapping[id] = newId` on a `std::unordered_map`. -/
def mapAssign (mapping : List (Int × Int)) (id newId : Int) : List (Int × Int) :=
  (mapping.filter fun p => p.1 != id) ++ [(id, newId)]

/-- State of the loop of `requestClipCopy`: `completed` is false when the
function returned from inside the loop. -/
structure CopyLoop where
  completed : Bool
  tx : Tx
  mapping : List (Int × Int)

/-- The body of the loop of `requestClipCopy` up to the test of `res` (source
lines 272-285): copy one item and move the copy to its destination.  Returns
`res`, `newId` and the threaded state. -/
def requestClipCopyStep (E : Env) (deltaTrack deltaPos : Int) (x : Tx) (id : Int) :
    Bool × Int × Tx :=
  let state := clipState x.timeline id
  let r := copyClip E x id (-1) state
  let newId := r.2.1
  let res := r.1 && (newId != -1)
  let x := r.2.2
  let target_position := getClipPosition x.timeline id + deltaPos
  let target_track_position :=
    getTrackPosition x.timeline (getClipTrackId x.timeline id) + deltaTrack
  if target_track_position ≥ 0 ∧ target_track_position < getTracksCount x.timeline then
    let target_track := trackAt x.timeline target_track_position
    let m := andAlso (res, x) fun y =>
      requestClipMove E y newId target_track target_position true false
    (m.1, newId, m.2)
  else (false, newId, x)

/-- The loop `for (int id : allIds)` of `requestClipCopy` (source lines 271-292). -/
def requestClipCopyLoop (E : Env) (deltaTrack deltaPos : Int) :
    List Int → Tx → List (Int × Int) → CopyLoop
  | [], x, mapping => { completed := true, tx := x, mapping := mapping }
  | id :: rest, x, mapping =>
    let s := requestClipCopyStep E deltaTrack deltaPos x id
    if s.1 = false then
      let undone := s.2.2.undo s.2.2.timeline
      { completed := false, tx := { s.2.2 with timeline := undone.2 }, mapping := mapping }
    else requestClipCopyLoop E deltaTrack deltaPos rest s.2.2 (mapAssign mapping id s.2.1)

/-- `TimelineFunctions::requestClipCopy` (source lines 262-301).  The function has
no `pushUndo` call: the history is handed back as it came. -/
def requestClipCopy (E : Env) (t : Timeline) (h : History) (clipId trackId position : Int) :
    Bool × Timeline × History :=
  let x := Tx.start t
  let deltaTrack := getTrackPosition t trackId - getTrackPosition t (getClipTrackId t clipId)
  let deltaPos := position - getClipPosition t clipId
  let allIds := getGroupElements t clipId
  let l := requestClipCopyLoop E deltaTrack deltaPos allIds x []
  if l.completed = false then (false, l.tx.timeline, h)
  else
    let r := copyGroups E l.tx l.mapping
    if r.1 = false then
      let undone := r.2.undo r.2.timeline
      (false, undone.2, h)
    else (true, r.2.timeline, h)

/-- The `redo` closure of `changeClipState` (source lines 325-339). -/
def changeClipStateRedo (E : Env) (clipId : Int) (status : ClipState) : Fun := fun s =>
  let trackId := getClipTrackId s clipId
  let r := setClipState E s clipId status
  -- in order to make the producer change effective, we need to unplant / replant the clip
  if trackId ≠ -1 then
    let start := getItemPosition r.2 clipId
    let end_ := start + getItemPlaytime r.2 clipId
    (r.1, replugAndRefresh r.2 trackId clipId start end_)
  else r

/-- The `undo` closure of `changeClipState` (source lines 340-356). -/
def changeClipStateUndo (E : Env) (clipId : Int) (oldState : ClipState) : Fun := fun s =>
  let r := setClipState E s clipId oldState
  -- in order to make the producer change effective, we need to unplant / replant the clip
  let trackId := getClipTrackId r.2 clipId
  if trackId ≠ -1 then
    let start := getItemPosition r.2 clipId
    let end_ := start + getItemPlaytime r.2 clipId
    (r.1, replugAndRefresh r.2 trackId clipId start end_)
  else r

/-- `TimelineFunctions::changeClipState` (source lines 317-362). -/
def changeClipState (E : Env) (t : Timeline) (h : History) (clipId : Int) (status : ClipState) :
    Bool × Timeline × History :=
  let oldState := clipState t clipId
  if oldState = status then (false, t, h)
  else
    let redo := changeClipStateRedo E clipId status
    let undo := changeClipStateUndo E clipId oldState
    let result := redo t
    if result.1 = true then (true, result.2, pushUndo h undo redo "Change clip state")
    else (false, result.2, h)

/-- State of the loop of `requestSplitAudio`: `completed` is false when the
function returned from inside the loop. -/
structure SplitLoop where
  completed : Bool
  tx : Tx
  history : History

/-- The loop `for (int cid : clips)` of `requestSplitAudio` (source lines
370-388).  `int newId;` is uninitialised in C++; `-1` stands for its value. -/
def requestSplitAudioLoop (E : Env) (clipId : Int) : List Int → Tx → History → SplitLoop
  | [], x, h => { completed := true, tx := x, history := h }
  | cid :: rest, x, h =>
    let position := getClipPosition x.timeline cid
    let track := getClipTrackId x.timeline cid
    let newTrack := getNextTrackId x.timeline track
    let s := changeClipState E x.timeline h clipId ClipState.VideoOnly
    let x := { x with timeline := s.2.1 }
    let h := s.2.2
    let r := copyClip E x cid (-1) ClipState.AudioOnly
    let newId := r.2.1
    let m := andAlso (r.1, r.2.2) fun y => requestClipMove E y newId newTrack position true false
    -- std::unordered_set<int> clips; clips.insert(clipId); clips.insert(newId);
    let clips := dedupIds [clipId, newId]
    let g := requestClipsGroupLogged E m.2.timeline h clips true
    let x := { m.2 with timeline := g.2.1 }
    let h := g.2.2
    if m.1 = false then
      let undone := x.undo x.timeline
      { completed := false, tx := { x with timeline := undone.2 }, history := h }
    else requestSplitAudioLoop E clipId rest x h

/-- `TimelineFunctions::requestSplitAudio` (source lines 364-391). -/
def requestSplitAudio (E : Env) (t : Timeline) (h : History) (clipId : Int) :
    Bool × Timeline × History :=
  let x := Tx.start t
  let clips := getGroupElements t clipId
  let l := requestSplitAudioLoop E clipId clips x h
  if l.completed = false then (false, l.tx.timeline, l.history)
  else (true, l.tx.timeline, pushUndo l.history l.tx.undo l.tx.redo "Split Audio")

end TimelineFunctions

/-! ## Invariants and notions used in the statements -/

/-- Modelled from the spec: the global undo/redo traversal that consumes a history
entry: it invokes the entry's `redo` (direction `true`) or `undo` (direction
`false`). -/
def Command.run (c : Command) (direction : Bool) : Fun :=
  if direction then c.redo else c.undo

/-- An alternation of undo and redo of one history entry, run from left to
right; the flag is the conjunction of the results. -/
def Command.replay (c : Command) (steps : List Bool) (s : Timeline) : Bool × Timeline :=
  steps.foldl (fun acc d => ((c.run d acc.2).1 && acc.1, (c.run d acc.2).2)) (true, s)

/-- Ids are unique: the id counter and every registered id are non-negative and
every registered id is below the counter, so that a newly drawn id is new. -/
def Timeline.Fresh (t : Timeline) : Prop :=
  0 ≤ t.nextId ∧ ∀ p ∈ t.clips, 0 ≤ p.1 ∧ p.1 < t.nextId

/-- Two timelines hold the same document: the same media, tracks, items (with
all their positions, durations, tracks and states) and groups.  Only the id
counter may differ. -/
def Timeline.SameDocument (a b : Timeline) : Prop :=
  a.bin = b.bin ∧ a.tracks = b.tracks ∧ a.clips = b.clips ∧ a.groups = b.groups

/-- The span of an item strictly straddles a position. -/
def straddles (t : Timeline) (cid position : Int) : Prop :=
  getClipPosition t cid < position ∧ position < getClipPosition t cid + getClipPlaytime t cid

instance (t : Timeline) (cid position : Int) : Decidable (straddles t cid position) := by
  unfold straddles; infer_instance

/-- All sub-steps of the user-facing cut succeed: the loop over the group is
not left by the `return false` that follows a failed single-item cut, and the
split of the group hierarchy, which runs when the item is grouped, returns
true. -/
def CutSubstepsSucceed (E : Env) (t : Timeline) (clipId position : Int) : Prop :=
  (TimelineFunctions.requestClipCutLoop E position (getGroupElements t clipId)
      (Tx.start t) 0).completed = true ∧
  (isInGroup (TimelineFunctions.requestClipCutLoop E position (getGroupElements t clipId)
      (Tx.start t) 0).tx.timeline clipId = true →
    (split E (TimelineFunctions.requestClipCutLoop E position (getGroupElements t clipId)
        (Tx.start t) 0).tx
      (getRootId (TimelineFunctions.requestClipCutLoop E position
        (getGroupElements t clipId) (Tx.start t) 0).tx.timeline clipId)
      (TimelineFunctions.cutCriterion position)).1 = true)

instance (E : Env) (t : Timeline) (clipId position : Int) :
    Decidable (CutSubstepsSucceed E t clipId position) := by
  unfold CutSubstepsSucceed; infer_instance

/-- The copy of the item can be created: the item is registered (the source
reads `m_allClips[id]` at line 273) and the creation that `copyClip` requests
for it (source line 36: the item's media, the item's state) succeeds. -/
def CopyCreated (E : Env) (t : Timeline) (id : Int) : Prop :=
  isClip t id = true ∧
  (requestClipCreation E (Tx.start t) (getClipBinId t id) (-1) (clipState t id)).1 = true

instance (E : Env) (t : Timeline) (id : Int) : Decidable (CopyCreated E t id) := by
  unfold CopyCreated; infer_instance

instance (t : Timeline) : Decidable t.Fresh := by
  unfold Timeline.Fresh; infer_instance

instance (a b : Timeline) : Decidable (a.SameDocument b) := by
  unfold Timeline.SameDocument; infer_instance

/-! ## Notions used in the proofs of rollback -/

/-- The timeline `base` extended by one clip `c` registered under the new id
`n`, with id counter `m`: the shape of the document while a copy is being
built. -/
def slot (base : Timeline) (n : Int) (c : Clip) (m : Int) : Timeline :=
  { base with clips := base.clips ++ [(n, c)], nextId := m }

/-- The running undo takes back a copy under construction, whatever its
content, and everything before it: it leads from every `slot base n c m` to
the document `t0`. -/
def Undoes (u : Fun) (base : Timeline) (n : Int) (t0 : Timeline) : Prop :=
  ∀ (c : Clip) (m : Int), u (slot base n c m) = (true, { t0 with nextId := m })

/-- The running undo of a transaction leads from its current timeline back to
the document `t0` (the id counter is not reset). -/
def Rollback (t0 : Timeline) (x : Tx) : Prop :=
  ∀ m : Int, x.undo { x.timeline with nextId := m } = (true, { t0 with nextId := m })

/-- The transaction `y` is building the copy `c` of a clip on top of the
transaction `x0`: its timeline is that of `x0` plus the copy under the id
drawn from the counter, and its running undo takes the copy back and then
does what the undo of `x0` does. -/
def Built (x0 y : Tx) (c : Clip) : Prop :=
  y.timeline = slot x0.timeline x0.timeline.nextId c (x0.timeline.nextId + 1) ∧
  ∀ t0, Rollback t0 x0 → Undoes y.undo x0.timeline x0.timeline.nextId t0

/-- Invariant of the loop of `requestClipCopy`, relative to the timeline `t0` at
the start of the call. -/
def CopyInv (t0 : Timeline) (x : Tx) : Prop :=
  x.timeline.Fresh ∧ Rollback t0 x ∧ x.timeline.tracks = t0.tracks ∧
  x.timeline.bin = t0.bin ∧
  ∀ j c, findClip t0.clips j = some c → findClip x.timeline.clips j = some c

/-! ## Sample documents -/

namespace Sample

/-- A clip of the bin clip 7 (300 frames long) on a track. -/
def clip (track position playtime : Int) : Clip :=
  { binId := 7, state := ClipState.Original, track := track, position := position, inPoint := 0,
    playtime := playtime, endlessResize := false, properties := 3, effects := [5] }

/-- One clip `1` spanning `[0, 100)` on track 0 of two tracks. -/
def single : Timeline :=
  { bin := [(7, 300)], tracks := [0, 1], clips := [(1, clip 0 0 100)], groups := [], nextId := 2 }

/-- The group `3` of the clips `1` on track 0 and `2` on track 1, both spanning
`[0, 100)`. -/
def stacked : Timeline :=
  { bin := [(7, 300)], tracks := [0, 1], clips := [(1, clip 0 0 100), (2, clip 1 0 100)],
    groups := [(1, 3), (2, 3)], nextId := 4 }

/-- The group `3` of the clips `1` at `[0, 100)` and `2` at `[100, 200)`, both on
track 0; track 1 is empty. -/
def inLine : Timeline :=
  { bin := [(7, 300)], tracks := [0, 1], clips := [(1, clip 0 0 100), (2, clip 0 100 100)],
    groups := [(1, 3), (2, 3)], nextId := 4 }

/-- One clip `1` spanning `[200, 300)` on track 0 of two tracks. -/
def late : Timeline :=
  { bin := [(7, 300)], tracks := [0, 1], clips := [(1, clip 0 200 100)], groups := [],
    nextId := 2 }

/-- One clip `1` spanning `[0, 50)` on track 0 of two tracks. -/
def short : Timeline :=
  { bin := [(7, 300)], tracks := [0, 1], clips := [(1, clip 0 0 50)], groups := [], nextId := 2 }

/-- Three clips on the only track: `1` at `[0, 100)`, `2` at `[100, 150)`, `3` at
`[200, 250)`. -/
def row : Timeline :=
  { bin := [(7, 300)], tracks := [0],
    clips := [(1, clip 0 0 100), (2, clip 0 100 50), (3, clip 0 200 50)], groups := [],
    nextId := 4 }

/-- One clip `1` at position 2147483600 with 100 frames on track 0 of two
tracks: its end lies past the largest `int`. -/
def pastEnd : Timeline :=
  { bin := [(7, 300)], tracks := [0, 1], clips := [(1, clip 0 2147483600 100)], groups := [],
    nextId := 2 }

end Sample

/-! ## Lemmas on the clip store -/

theorem findClip_modifyClips (f : Clip → Clip) (id j : Int) (l : List (Int × Clip)) :
    findClip (modifyClips f id l) j
      = if j = id then (findClip l j).map f else findClip l j := by
  induction l with
  | nil => simp [modifyClips, findClip]
  | cons p rest ih =>
    by_cases hp : p.1 = id
    · by_cases hj : j = id
      · subst hj; simp [modifyClips, findClip, hp]
      · have : ¬ id = j := fun e => hj e.symm
        simp [modifyClips, findClip, hp, hj, this, ih]
    · by_cases hj : p.1 = j
      · by_cases hji : j = id
        · exact absurd (hj.trans hji) hp
        · simp [modifyClips, findClip, hp, hj, hji]
      · simp [modifyClips, findClip, hp, hj, ih]

theorem findClip_append_single (l : List (Int × Clip)) (n j : Int) (c : Clip) :
    findClip (l ++ [(n, c)]) j
      = match findClip l j with
        | some k => some k
        | none => if n = j then some c else none := by
  induction l with
  | nil => simp [findClip]
  | cons p rest ih =>
    by_cases hp : p.1 = j
    · simp [findClip, hp]
    · simp [findClip, hp, ih]

theorem findClip_none_of_fresh {t : Timeline} (hf : t.Fresh) {n : Int}
    (hn : n < 0 ∨ t.nextId ≤ n) : findClip t.clips n = none := by
  have key : ∀ l : List (Int × Clip), (∀ p ∈ l, 0 ≤ p.1 ∧ p.1 < t.nextId) →
      findClip l n = none := by
    intro l
    induction l with
    | nil => intro _; rfl
    | cons p rest ih =>
      intro h
      have hp := h p (List.mem_cons_self _ _)
      have hne : ¬ p.1 = n := by omega
      simp only [findClip, hne, if_false]
      exact ih fun q hq => h q (List.mem_cons_of_mem _ hq)
  exact key t.clips hf.2

theorem modifyClips_of_none (f : Clip → Clip) (id : Int) (l : List (Int × Clip))
    (h : findClip l id = none) : modifyClips f id l = l := by
  induction l with
  | nil => rfl
  | cons p rest ih =>
    by_cases hp : p.1 = id
    · simp [findClip, hp] at h
    · simp only [findClip, hp, if_false] at h
      simp [modifyClips, hp, ih h]

theorem eraseClips_of_none (id : Int) (l : List (Int × Clip))
    (h : findClip l id = none) : eraseClips id l = l := by
  induction l with
  | nil => rfl
  | cons p rest ih =>
    by_cases hp : p.1 = id
    · simp [findClip, hp] at h
    · simp only [findClip, hp, if_false] at h
      simp [eraseClips, hp, ih h]

theorem modifyClips_append (f : Clip → Clip) (id : Int) (l m : List (Int × Clip)) :
    modifyClips f id (l ++ m) = modifyClips f id l ++ modifyClips f id m := by
  induction l with
  | nil => rfl
  | cons p rest ih => simp [modifyClips, ih]

theorem eraseClips_append (id : Int) (l m : List (Int × Clip)) :
    eraseClips id (l ++ m) = eraseClips id l ++ eraseClips id m := by
  induction l with
  | nil => rfl
  | cons p rest ih =>
    by_cases hp : p.1 = id
    · simp [eraseClips, hp, ih]
    · simp [eraseClips, hp, ih]

theorem slot_modify (base : Timeline) (n : Int) (c : Clip) (m : Int) (f : Clip → Clip)
    (hn : findClip base.clips n = none) :
    (slot base n c m).modify n f = slot base n (f c) m := by
  unfold slot Timeline.modify
  simp [modifyClips_append, modifyClips_of_none f n _ hn, modifyClips]

theorem slot_deregister (base : Timeline) (n : Int) (c : Clip) (m : Int)
    (hn : findClip base.clips n = none) :
    (slot base n c m).deregister n = { base with nextId := m } := by
  unfold slot Timeline.deregister
  simp [eraseClips_append, eraseClips_of_none n _ hn, eraseClips]

theorem slot_find_self (base : Timeline) (n : Int) (c : Clip) (m : Int)
    (hn : findClip base.clips n = none) :
    findClip (slot base n c m).clips n = some c := by
  unfold slot
  simp [findClip_append_single, hn]

theorem slot_find_other (base : Timeline) (n : Int) (c : Clip) (m : Int) (j : Int)
    (hj : j ≠ n) : findClip (slot base n c m).clips j = findClip base.clips j := by
  unfold slot
  simp only [findClip_append_single]
  have : ¬ n = j := fun e => hj e.symm
  cases findClip base.clips j <;> simp [this]

theorem slot_find_registered (base : Timeline) (n : Int) (c : Clip) (m : Int) (j : Int)
    (k : Clip) (hj : findClip base.clips j = some k) :
    findClip (slot base n c m).clips j = some k := by
  unfold slot
  simp [findClip_append_single, hj]

theorem slot_nextId (base : Timeline) (n : Int) (c : Clip) (m m' : Int) :
    { slot base n c m with nextId := m' } = slot base n c m' := rfl

theorem rollback_of_undoes {t0 base : Timeline} {n : Int} {c : Clip} {m : Int} {x : Tx}
    (hx : x.timeline = slot base n c m) (hu : Undoes x.undo base n t0) : Rollback t0 x := by
  intro m'
  rw [hx, slot_nextId]
  exact hu c m'

theorem rollback_start (t : Timeline) : Rollback t (Tx.start t) := by
  intro m; rfl

theorem undoes_update {x : Tx} {base t0 : Timeline} {n : Int} (operation reverse : Fun)
    (t' : Timeline) (g : Clip → Clip)
    (hrev : ∀ (c : Clip) (m : Int), reverse (slot base n c m) = (true, slot base n (g c) m))
    (hu : Undoes x.undo base n t0) :
    Undoes (updateUndoRedo operation reverse x t').undo base n t0 := by
  intro c m
  show ((x.undo (reverse (slot base n c m)).2).1 && (reverse (slot base n c m)).1,
    (x.undo (reverse (slot base n c m)).2).2) = _
  rw [hrev c m]
  simp [hu (g c) m]

/-! ## What the primitives do -/

theorem requestItemResize_true (E : Env) (x : Tx) (itemId size : Int) (right lu : Bool)
    (h : (requestItemResize E x itemId size right lu).1 = true) :
    ∃ c, findClip x.timeline.clips itemId = some c ∧ 0 < size ∧
      (requestItemResize E x itemId size right lu).2.timeline
        = x.timeline.modify itemId fun k =>
            { k with inPoint := (resized c size right).inPoint,
                     position := (resized c size right).position, playtime := size } := by
  unfold requestItemResize at h ⊢
  cases hc : findClip x.timeline.clips itemId with
  | none => simp [hc] at h
  | some c =>
    simp only [hc] at h ⊢
    by_cases h1 : size ≤ 0 ∨ E.veto (Request.resize itemId size right) = true
    · rw [if_pos h1] at h; simp at h
    · rw [if_neg h1] at h ⊢
      by_cases h2 : c.track ≠ -1
          ∧ collides x.timeline.clips [itemId] c.track (resized c size right).position size = true
      · rw [if_pos h2] at h; simp at h
      · rw [if_neg h2]
        refine ⟨c, rfl, ?_, rfl⟩
        by_contra hs
        exact h1 (Or.inl (by omega))

theorem requestItemResize_false (E : Env) (x : Tx) (itemId size : Int) (right lu : Bool)
    (h : (requestItemResize E x itemId size right lu).1 = false) :
    requestItemResize E x itemId size right lu = (false, x) := by
  unfold requestItemResize at h ⊢
  cases hc : findClip x.timeline.clips itemId with
  | none => rfl
  | some c =>
    simp only [hc] at h ⊢
    by_cases h1 : size ≤ 0 ∨ E.veto (Request.resize itemId size right) = true
    · rw [if_pos h1]
    · rw [if_neg h1] at h ⊢
      by_cases h2 : c.track ≠ -1
          ∧ collides x.timeline.clips [itemId] c.track (resized c size right).position size = true
      · rw [if_pos h2]
      · rw [if_neg h2] at h; simp at h

theorem requestItemResize_slot (E : Env) (x : Tx) (base : Timeline) (n : Int) (c : Clip)
    (m size : Int) (right lu : Bool) (hn : findClip base.clips n = none)
    (hx : x.timeline = slot base n c m)
    (h : (requestItemResize E x n size right lu).1 = true) :
    (requestItemResize E x n size right lu).2.timeline = slot base n (resized c size right) m ∧
    ∀ t0, Undoes x.undo base n t0 →
      Undoes (requestItemResize E x n size right lu).2.undo base n t0 := by
  have hfind : findClip x.timeline.clips n = some c := by rw [hx]; exact slot_find_self _ _ _ _ hn
  unfold requestItemResize at h ⊢
  simp only [hfind] at h ⊢
  by_cases h1 : size ≤ 0 ∨ E.veto (Request.resize n size right) = true
  · rw [if_pos h1] at h; simp at h
  · rw [if_neg h1] at h ⊢
    by_cases h2 : c.track ≠ -1
        ∧ collides x.timeline.clips [n] c.track (resized c size right).position size = true
    · rw [if_pos h2] at h; simp at h
    · rw [if_neg h2]
      refine ⟨?_, ?_⟩
      · show x.timeline.modify n _ = _
        rw [hx, slot_modify _ _ _ _ _ hn]
        rfl
      · intro t0 hu
        refine undoes_update _ _ _
          (fun k => { k with inPoint := c.inPoint, position := c.position,
                             playtime := c.playtime }) ?_ hu
        intro c' m'
        show (true, (slot base n c' m').modify n _) = _
        rw [slot_modify _ _ _ _ _ hn]

theorem requestClipMove_true (E : Env) (x : Tx) (clipId trackId position : Int) (a b : Bool)
    (h : (requestClipMove E x clipId trackId position a b).1 = true) :
    ∃ c, findClip x.timeline.clips clipId = some c ∧ trackId ∈ x.timeline.tracks ∧
      (requestClipMove E x clipId trackId position a b).2.timeline
        = x.timeline.modify clipId fun k => { k with track := trackId, position := position } := by
  unfold requestClipMove at h ⊢
  cases hc : findClip x.timeline.clips clipId with
  | none => simp [hc] at h
  | some c =>
    simp only [hc] at h ⊢
    by_cases h1 : trackId ∉ x.timeline.tracks ∨ E.veto (Request.move clipId trackId position) = true
        ∨ collides x.timeline.clips [clipId] trackId position c.playtime = true
    · rw [if_pos h1] at h; simp at h
    · rw [if_neg h1]
      refine ⟨c, rfl, ?_, rfl⟩
      by_contra hs
      exact h1 (Or.inl hs)

theorem requestClipMove_false (E : Env) (x : Tx) (clipId trackId position : Int) (a b : Bool)
    (h : (requestClipMove E x clipId trackId position a b).1 = false) :
    requestClipMove E x clipId trackId position a b = (false, x) := by
  unfold requestClipMove at h ⊢
  cases hc : findClip x.timeline.clips clipId with
  | none => rfl
  | some c =>
    simp only [hc] at h ⊢
    by_cases h1 : trackId ∉ x.timeline.tracks ∨ E.veto (Request.move clipId trackId position) = true
        ∨ collides x.timeline.clips [clipId] trackId position c.playtime = true
    · rw [if_pos h1]
    · rw [if_neg h1] at h; simp at h

theorem requestClipMove_slot (E : Env) (x : Tx) (base : Timeline) (n : Int) (c : Clip)
    (m trackId position : Int) (a b : Bool) (hn : findClip base.clips n = none)
    (hx : x.timeline = slot base n c m)
    (h : (requestClipMove E x n trackId position a b).1 = true) :
    (requestClipMove E x n trackId position a b).2.timeline
        = slot base n { c with track := trackId, position := position } m ∧
    ∀ t0, Undoes x.undo base n t0 →
      Undoes (requestClipMove E x n trackId position a b).2.undo base n t0 := by
  have hfind : findClip x.timeline.clips n = some c := by rw [hx]; exact slot_find_self _ _ _ _ hn
  unfold requestClipMove at h ⊢
  simp only [hfind] at h ⊢
  by_cases h1 : trackId ∉ x.timeline.tracks ∨ E.veto (Request.move n trackId position) = true
      ∨ collides x.timeline.clips [n] trackId position c.playtime = true
  · rw [if_pos h1] at h; simp at h
  · rw [if_neg h1]
    refine ⟨?_, ?_⟩
    · show x.timeline.modify n _ = _
      rw [hx, slot_modify _ _ _ _ _ hn]
    · intro t0 hu
      refine undoes_update _ _ _
        (fun k => { k with track := c.track, position := c.position }) ?_ hu
      intro c' m'
      show (true, (slot base n c' m').modify n _) = _
      rw [slot_modify _ _ _ _ _ hn]

theorem requestClipCreation_true (E : Env) (x : Tx) (binClipId id : Int) (state : ClipState)
    (hf : x.timeline.Fresh)
    (h : (requestClipCreation E x binClipId id state).1 = true) :
    ∃ len, binLength x.timeline.bin binClipId = some len ∧
      (requestClipCreation E x binClipId id state).2.1 = x.timeline.nextId ∧
      (requestClipCreation E x binClipId id state).2.2.timeline
        = slot x.timeline x.timeline.nextId (created binClipId state len)
            (x.timeline.nextId + 1) ∧
      ∀ t0, Rollback t0 x →
        Undoes (requestClipCreation E x binClipId id state).2.2.undo x.timeline
          x.timeline.nextId t0 := by
  have hn : findClip x.timeline.clips x.timeline.nextId = none :=
    findClip_none_of_fresh hf (Or.inr (le_refl _))
  unfold requestClipCreation at h ⊢
  cases hb : binLength x.timeline.bin binClipId with
  | none => simp [hb] at h
  | some len =>
    simp only [hb] at h ⊢
    by_cases h1 : E.veto (Request.create binClipId state) = true
    · rw [if_pos h1] at h; simp at h
    · rw [if_neg h1]
      refine ⟨len, rfl, rfl, rfl, ?_⟩
      intro t0 hr c m
      show ((x.undo ((slot x.timeline x.timeline.nextId c m).deregister x.timeline.nextId)).1
        && true, (x.undo ((slot x.timeline x.timeline.nextId c m).deregister
          x.timeline.nextId)).2) = _
      rw [slot_deregister _ _ _ _ hn]
      simp [hr m]

theorem requestItemResize_building (E : Env) (y : Tx) (base : Timeline) (n : Int) (c : Clip)
    (m size : Int) (right lu : Bool) (hn : findClip base.clips n = none)
    (hy : y.timeline = slot base n c m) :
    ∃ c', (requestItemResize E y n size right lu).2.timeline = slot base n c' m ∧
      c'.state = c.state ∧ c'.track = c.track ∧
      ((requestItemResize E y n size right lu).1 = true → c'.playtime = size) ∧
      (∀ t0, Undoes y.undo base n t0 →
        Undoes (requestItemResize E y n size right lu).2.undo base n t0) := by
  cases hres : (requestItemResize E y n size right lu).1 with
  | false =>
    rw [requestItemResize_false E y n size right lu hres]
    exact ⟨c, hy, rfl, rfl, fun h => by simp at h, fun _ hu => hu⟩
  | true =>
    obtain ⟨h1, h2⟩ := requestItemResize_slot E y base n c m size right lu hn hy hres
    exact ⟨resized c size right, h1, rfl, rfl, fun _ => rfl, h2⟩

theorem requestClipMove_building (E : Env) (y : Tx) (base : Timeline) (n : Int) (c : Clip)
    (m trackId position : Int) (a b : Bool) (hn : findClip base.clips n = none)
    (hy : y.timeline = slot base n c m) :
    ∃ c', (requestClipMove E y n trackId position a b).2.timeline = slot base n c' m ∧
      c'.state = c.state ∧ c'.playtime = c.playtime ∧
      ((requestClipMove E y n trackId position a b).1 = true →
        c'.track = trackId ∧ c'.position = position) ∧
      (∀ t0, Undoes y.undo base n t0 →
        Undoes (requestClipMove E y n trackId position a b).2.undo base n t0) := by
  cases hres : (requestClipMove E y n trackId position a b).1 with
  | false =>
    rw [requestClipMove_false E y n trackId position a b hres]
    exact ⟨c, hy, rfl, rfl, fun h => by simp at h, fun _ hu => hu⟩
  | true =>
    obtain ⟨h1, h2⟩ := requestClipMove_slot E y base n c m trackId position a b hn hy hres
    exact ⟨_, h1, rfl, rfl, fun _ => ⟨rfl, rfl⟩, h2⟩

/-! ## `copyClip` -/

theorem getClipPlaytime_slot_self (base : Timeline) (n : Int) (c : Clip) (m : Int)
    (hn : findClip base.clips n = none) : getClipPlaytime (slot base n c m) n = c.playtime := by
  unfold getClipPlaytime Timeline.clip
  rw [slot_find_self _ _ _ _ hn]
  rfl

theorem clip_slot_other (base : Timeline) (n : Int) (c : Clip) (m : Int) (j : Int)
    (hj : j ≠ n) : (slot base n c m).clip j = base.clip j := by
  unfold Timeline.clip
  rw [slot_find_other _ _ _ _ _ hj]

theorem andAlso_true {r : Bool × Tx} {step : Tx → Bool × Tx} (h : (andAlso r step).1 = true) :
    r.1 = true ∧ andAlso r step = step r.2 := by
  unfold andAlso at h ⊢
  cases hr : r.1 with
  | false => simp [hr] at h
  | true => simp

theorem andAlso_mk_true (y : Tx) (step : Tx → Bool × Tx) : andAlso (true, y) step = step y :=
  rfl

theorem andAlso_of_true {r : Bool × Tx} {step : Tx → Bool × Tx} (h : r.1 = true) :
    andAlso r step = step r.2 := by
  unfold andAlso
  simp [h]

theorem andAlso_of_false {r : Bool × Tx} {step : Tx → Bool × Tx} (h : r.1 = false) :
    andAlso r step = (false, r.2) := by
  unfold andAlso
  simp [h]

theorem built_creation (E : Env) (x : Tx) (binClipId n0 : Int) (state : ClipState)
    (hf : x.timeline.Fresh) (hcr : (requestClipCreation E x binClipId n0 state).1 = true) :
    (requestClipCreation E x binClipId n0 state).2.1 = x.timeline.nextId ∧
    ∃ c, Built x (requestClipCreation E x binClipId n0 state).2.2 c ∧
      c.state = state ∧ c.track = -1 := by
  obtain ⟨len, -, hid, htl, hundo⟩ := requestClipCreation_true E x binClipId n0 state hf hcr
  exact ⟨hid, created binClipId state len, ⟨htl, hundo⟩, rfl, rfl⟩

theorem built_write (x0 y : Tx) (c : Clip) (F : Timeline → Clip → Clip)
    (hf : x0.timeline.Fresh) (hb : Built x0 y c) :
    Built x0 (y.write fun t => t.modify x0.timeline.nextId (F t)) (F y.timeline c) := by
  have hn := findClip_none_of_fresh hf (Or.inr (le_refl x0.timeline.nextId))
  refine ⟨?_, hb.2⟩
  show y.timeline.modify x0.timeline.nextId (F y.timeline) = _
  rw [hb.1, slot_modify _ _ _ _ _ hn]

theorem built_resize (E : Env) (x0 y : Tx) (c : Clip) (size : Int) (right lu : Bool)
    (hf : x0.timeline.Fresh) (hb : Built x0 y c) :
    ∃ c', Built x0 (requestItemResize E y x0.timeline.nextId size right lu).2 c' ∧
      c'.state = c.state ∧ c'.track = c.track ∧
      ((requestItemResize E y x0.timeline.nextId size right lu).1 = true →
        c'.playtime = size) := by
  have hn := findClip_none_of_fresh hf (Or.inr (le_refl x0.timeline.nextId))
  obtain ⟨c', h1, h2, h3, h4, h5⟩ := requestItemResize_building E y x0.timeline
    x0.timeline.nextId c (x0.timeline.nextId + 1) size right lu hn hb.1
  exact ⟨c', ⟨h1, fun t0 hr => h5 t0 (hb.2 t0 hr)⟩, h2, h3, h4⟩

theorem built_move (E : Env) (x0 y : Tx) (c : Clip) (trackId position : Int) (a b : Bool)
    (hf : x0.timeline.Fresh) (hb : Built x0 y c) :
    ∃ c', Built x0 (requestClipMove E y x0.timeline.nextId trackId position a b).2 c' ∧
      c'.state = c.state ∧ c'.playtime = c.playtime ∧
      ((requestClipMove E y x0.timeline.nextId trackId position a b).1 = true →
        c'.track = trackId ∧ c'.position = position) := by
  have hn := findClip_none_of_fresh hf (Or.inr (le_refl x0.timeline.nextId))
  obtain ⟨c', h1, h2, h3, h4, h5⟩ := requestClipMove_building E y x0.timeline
    x0.timeline.nextId c (x0.timeline.nextId + 1) trackId position a b hn hb.1
  exact ⟨c', ⟨h1, fun t0 hr => h5 t0 (hb.2 t0 hr)⟩, h2, h3, h4⟩

theorem built_trim (E : Env) (x0 y : Tx) (c : Clip) (clipId : Int) (res : Bool)
    (hf : x0.timeline.Fresh) (hb : Built x0 y c) :
    ∃ c', Built x0 (TimelineFunctions.copyClipTrim E y clipId x0.timeline.nextId res).2 c' ∧
      c'.state = c.state ∧ c'.track = c.track ∧
      ((TimelineFunctions.copyClipTrim E y clipId x0.timeline.nextId res).1 = true →
        c'.playtime = getClipPlaytime y.timeline clipId) := by
  have hn := findClip_none_of_fresh hf (Or.inr (le_refl x0.timeline.nextId))
  unfold TimelineFunctions.copyClipTrim
  dsimp only
  by_cases hd : getClipPlaytime y.timeline clipId ≠ getClipPlaytime y.timeline x0.timeline.nextId
  · rw [if_pos hd]
    cases res with
    | false =>
      rw [andAlso_of_false (r := (false, y)) rfl, andAlso_of_false rfl]
      exact ⟨c, hb, rfl, rfl, fun h => by simp at h⟩
    | true =>
      rw [andAlso_mk_true]
      obtain ⟨c1, hb1, hs1, ht1, -⟩ := built_resize E x0 y c
        (getClipPlaytime y.timeline x0.timeline.nextId - getIn y.timeline clipId) false true hf hb
      cases ha : (requestItemResize E y x0.timeline.nextId
          (getClipPlaytime y.timeline x0.timeline.nextId - getIn y.timeline clipId)
          false true).1 with
      | false =>
        rw [andAlso_of_false ha]
        exact ⟨c1, hb1, hs1, ht1, fun h => by simp at h⟩
      | true =>
        rw [andAlso_of_true ha]
        obtain ⟨c2, hb2, hs2, ht2, hp2⟩ := built_resize E x0 _ c1
          (getClipPlaytime y.timeline clipId) true true hf hb1
        exact ⟨c2, hb2, hs2.trans hs1, ht2.trans ht1, hp2⟩
  · rw [if_neg hd]
    refine ⟨c, hb, rfl, rfl, fun _ => ?_⟩
    have hd' : getClipPlaytime y.timeline clipId
        = getClipPlaytime y.timeline x0.timeline.nextId := not_not.1 hd
    rw [hd', hb.1, getClipPlaytime_slot_self _ _ _ _ hn]

theorem getClipPlaytime_slot_other (base : Timeline) (n : Int) (c : Clip) (m : Int) (j : Int)
    (hj : j ≠ n) : getClipPlaytime (slot base n c m) j = getClipPlaytime base j := by
  unfold getClipPlaytime
  rw [clip_slot_other _ _ _ _ _ hj]

theorem built_write_ex (x0 y : Tx) (c : Clip) (F : Timeline → Clip → Clip)
    (hf : x0.timeline.Fresh) (hb : Built x0 y c)
    (hF : ∀ t k, (F t k).state = k.state ∧ (F t k).track = k.track
      ∧ (F t k).playtime = k.playtime) :
    ∃ c', Built x0 (y.write fun t => t.modify x0.timeline.nextId (F t)) c' ∧
      c'.state = c.state ∧ c'.track = c.track ∧ c'.playtime = c.playtime :=
  ⟨F y.timeline c, built_write x0 y c F hf hb, (hF _ _).1, (hF _ _).2.1, (hF _ _).2.2⟩

theorem copyClip_created (E : Env) (x : Tx) (clipId n0 : Int) (state : ClipState)
    (hf : x.timeline.Fresh)
    (hcr : (requestClipCreation E x (getClipBinId x.timeline clipId) n0 state).1 = true) :
    (TimelineFunctions.copyClip E x clipId n0 state).2.1 = x.timeline.nextId ∧
    ∃ c', Built x (TimelineFunctions.copyClip E x clipId n0 state).2.2 c' ∧
      c'.state = state ∧ c'.track = -1 ∧
      ((TimelineFunctions.copyClip E x clipId n0 state).1 = true →
        clipId ≠ x.timeline.nextId → c'.playtime = getClipPlaytime x.timeline clipId) := by
  obtain ⟨hid, c0, hb0, hs0, ht0⟩ := built_creation E x _ n0 state hf hcr
  unfold TimelineFunctions.copyClip
  dsimp only
  rw [hid, hcr]
  generalize (requestClipCreation E x (getClipBinId x.timeline clipId) n0 state).2.2 = y0
    at hb0 ⊢
  obtain ⟨c1, hb1, hs1, ht1, -⟩ := built_write_ex x y0 c0
    (fun t k => { k with endlessResize := (t.clip clipId).endlessResize }) hf hb0
    (fun _ _ => ⟨rfl, rfl, rfl⟩)
  generalize (y0.write fun t => t.modify x.timeline.nextId fun k =>
    { k with endlessResize := (t.clip clipId).endlessResize }) = y1 at hb1 ⊢
  obtain ⟨c2, hb2, hs2, ht2, -⟩ := built_write_ex x y1 c1
    (fun t k => { k with properties := (t.clip clipId).properties }) hf hb1
    (fun _ _ => ⟨rfl, rfl, rfl⟩)
  have hy2e : (y1.write fun t => t.modify x.timeline.nextId fun k =>
      { k with properties := (t.clip clipId).properties })
      = (y1.write fun t => passTimelineProperties t clipId x.timeline.nextId) := rfl
  rw [hy2e] at hb2
  generalize (y1.write fun t => passTimelineProperties t clipId x.timeline.nextId) = y2
    at hb2 ⊢
  obtain ⟨c3, hb3, hs3, ht3, hp3⟩ := built_trim E x y2 c2 clipId true hf hb2
  have hplay : (TimelineFunctions.copyClipTrim E y2 clipId x.timeline.nextId true).1 = true →
      clipId ≠ x.timeline.nextId → c3.playtime = getClipPlaytime x.timeline clipId := by
    intro h1 h2
    rw [hp3 h1, hb2.1, getClipPlaytime_slot_other _ _ _ _ _ h2]
  generalize TimelineFunctions.copyClipTrim E y2 clipId x.timeline.nextId true = r2
    at hb3 hplay ⊢
  have hst : c3.state = state := by rw [hs3, hs2, hs1, hs0]
  have htr : c3.track = -1 := by rw [ht3, ht2, ht1, ht0]
  by_cases hr2 : r2.1 = false
  · rw [if_pos hr2]
    exact ⟨rfl, c3, hb3, hst, htr, fun h => by simp [hr2] at h⟩
  · rw [if_neg hr2]
    obtain ⟨c4, hb4, hs4, ht4, hp4⟩ := built_write_ex x r2.2 c3
      (fun t k => { k with effects := k.effects ++ (t.clip clipId).effects }) hf hb3
      (fun _ _ => ⟨rfl, rfl, rfl⟩)
    refine ⟨rfl, c4, hb4, hs4.trans hst, ht4.trans htr, fun h hne => ?_⟩
    rw [hp4]
    exact hplay h hne

theorem copyClipTrim_false (E : Env) (y : Tx) (clipId n : Int) :
    TimelineFunctions.copyClipTrim E y clipId n false = (false, y) := by
  unfold TimelineFunctions.copyClipTrim
  dsimp only
  split
  · rw [andAlso_of_false (r := (false, y)) rfl, andAlso_of_false rfl]
  · rfl

theorem copyClip_true_created (E : Env) (x : Tx) (clipId n0 : Int) (state : ClipState)
    (h : (TimelineFunctions.copyClip E x clipId n0 state).1 = true) :
    (requestClipCreation E x (getClipBinId x.timeline clipId) n0 state).1 = true := by
  by_contra hc
  have hcr : (requestClipCreation E x (getClipBinId x.timeline clipId) n0 state).1 = false := by
    simpa using hc
  unfold TimelineFunctions.copyClip at h
  dsimp only at h
  rw [hcr, copyClipTrim_false] at h
  simp at h

/-! ## The cut of one item -/

theorem findClip_modify (t : Timeline) (id j : Int) (f : Clip → Clip) :
    findClip (t.modify id f).clips j
      = if j = id then (findClip t.clips j).map f else findClip t.clips j :=
  findClip_modifyClips f id j t.clips

theorem registered_of_playtime (t : Timeline) (id : Int) (h : 0 < getClipPlaytime t id) :
    ∃ c, findClip t.clips id = some c := by
  cases hc : findClip t.clips id with
  | none =>
    unfold getClipPlaytime Timeline.clip at h
    rw [hc] at h
    simp [Clip.absent] at h
  | some c => exact ⟨c, rfl⟩

theorem lt_nextId_of_registered {t : Timeline} (hf : t.Fresh) {id : Int} {c : Clip}
    (h : findClip t.clips id = some c) : 0 ≤ id ∧ id < t.nextId := by
  by_contra hc
  have : id < 0 ∨ t.nextId ≤ id := by omega
  rw [findClip_none_of_fresh hf this] at h
  cases h

/-- C2: when the cut of one item at a position strictly inside its span returns
true, the original item keeps its start, track and state and ends at the cut
position, and the new item (a new id) starts at the cut position on the
original's track, has the original's state and the complement of the
duration, so that the two durations sum to the original duration. -/
theorem requestClipCut_spans (E : Env) (x : Tx) (clipId position newId : Int)
    (hf : x.timeline.Fresh)
    (h1 : getClipPosition x.timeline clipId < position)
    (h2 : position < getClipPosition x.timeline clipId + getClipPlaytime x.timeline clipId)
    (hres : (TimelineFunctions.requestClipCut E x clipId position newId).1 = true) :
    (TimelineFunctions.requestClipCut E x clipId position newId).2.1 ≠ clipId ∧
    isClip x.timeline (TimelineFunctions.requestClipCut E x clipId position newId).2.1 = false ∧
    getClipPosition (TimelineFunctions.requestClipCut E x clipId position newId).2.2.timeline
      clipId = getClipPosition x.timeline clipId ∧
    getClipPlaytime (TimelineFunctions.requestClipCut E x clipId position newId).2.2.timeline
      clipId = position - getClipPosition x.timeline clipId ∧
    getClipTrackId (TimelineFunctions.requestClipCut E x clipId position newId).2.2.timeline
      clipId = getClipTrackId x.timeline clipId ∧
    clipState (TimelineFunctions.requestClipCut E x clipId position newId).2.2.timeline
      clipId = clipState x.timeline clipId ∧
    getClipPosition (TimelineFunctions.requestClipCut E x clipId position newId).2.2.timeline
      (TimelineFunctions.requestClipCut E x clipId position newId).2.1 = position ∧
    getClipPlaytime (TimelineFunctions.requestClipCut E x clipId position newId).2.2.timeline
      (TimelineFunctions.requestClipCut E x clipId position newId).2.1
        = getClipPosition x.timeline clipId + getClipPlaytime x.timeline clipId - position ∧
    getClipTrackId (TimelineFunctions.requestClipCut E x clipId position newId).2.2.timeline
      (TimelineFunctions.requestClipCut E x clipId position newId).2.1
        = getClipTrackId x.timeline clipId ∧
    clipState (TimelineFunctions.requestClipCut E x clipId position newId).2.2.timeline
      (TimelineFunctions.requestClipCut E x clipId position newId).2.1
        = clipState x.timeline clipId ∧
    getClipPlaytime (TimelineFunctions.requestClipCut E x clipId position newId).2.2.timeline
        clipId
      + getClipPlaytime (TimelineFunctions.requestClipCut E x clipId position newId).2.2.timeline
        (TimelineFunctions.requestClipCut E x clipId position newId).2.1
      = getClipPlaytime x.timeline clipId := by
  obtain ⟨c0, hc0⟩ := registered_of_playtime x.timeline clipId (by omega)
  have hlt := lt_nextId_of_registered hf hc0
  have hne : clipId ≠ x.timeline.nextId := by omega
  have hn := findClip_none_of_fresh hf (Or.inr (le_refl x.timeline.nextId))
  have hguard : ¬ (getClipPosition x.timeline clipId > position
      ∨ wrapInt (getClipPosition x.timeline clipId + getClipPlaytime x.timeline clipId)
        < position) := by
    intro hg
    unfold TimelineFunctions.requestClipCut at hres
    rw [if_pos hg] at hres
    simp at hres
  unfold TimelineFunctions.requestClipCut at hres ⊢
  rw [if_neg hguard] at hres ⊢
  dsimp only at hres ⊢
  -- the copy
  have hr1 : (TimelineFunctions.copyClip E x clipId newId (clipState x.timeline clipId)).1
      = true := (andAlso_true (andAlso_true (andAlso_true hres).1).1).1
  have hcr := copyClip_true_created E x clipId newId _ hr1
  obtain ⟨hid, c', hbuilt, hst, htr, hpl⟩ := copyClip_created E x clipId newId _ hf hcr
  have hpl := hpl hr1 hne
  rw [hid, hr1] at hres ⊢
  generalize (TimelineFunctions.copyClip E x clipId newId (clipState x.timeline clipId)).2.2 = y
    at hres hbuilt ⊢
  have hyc : findClip y.timeline.clips clipId = some c0 := by
    rw [hbuilt.1]; exact slot_find_registered _ _ _ _ _ _ hc0
  have hyn : findClip y.timeline.clips x.timeline.nextId = some c' := by
    rw [hbuilt.1]; exact slot_find_self _ _ _ _ hn
  -- the resize of the original
  rw [andAlso_mk_true] at hres ⊢
  have ha1 := (andAlso_true (andAlso_true hres).1).1
  obtain ⟨ca, hca, -, hta⟩ := requestItemResize_true E y clipId _ true true ha1
  rw [hyc] at hca
  cases hca
  generalize requestItemResize E y clipId (position - getClipPosition x.timeline clipId)
    true true = a at hres ha1 hta ⊢
  have hac : findClip a.2.timeline.clips clipId = some
      { c0 with inPoint := (resized c0 (position - getClipPosition x.timeline clipId) true).inPoint,
                position :=
                  (resized c0 (position - getClipPosition x.timeline clipId) true).position,
                playtime := position - getClipPosition x.timeline clipId } := by
    rw [hta, findClip_modify, if_pos rfl, hyc]; rfl
  have han : findClip a.2.timeline.clips x.timeline.nextId = some c' := by
    rw [hta, findClip_modify, if_neg (fun e => hne e.symm), hyn]
  have hnd : getClipPlaytime a.2.timeline clipId = position - getClipPosition x.timeline clipId := by
    unfold getClipPlaytime Timeline.clip; rw [hac]; rfl
  rw [hnd, andAlso_of_true ha1] at hres ⊢
  -- the resize of the copy
  have hb1 := (andAlso_true hres).1
  obtain ⟨cb, hcb, -, htb⟩ := requestItemResize_true E a.2 x.timeline.nextId _ false true hb1
  rw [han] at hcb
  cases hcb
  generalize requestItemResize E a.2 x.timeline.nextId
    (getClipPlaytime x.timeline clipId - (position - getClipPosition x.timeline clipId))
    false true = b at hres hb1 htb ⊢
  have hbc : findClip b.2.timeline.clips clipId = some
      { c0 with inPoint := (resized c0 (position - getClipPosition x.timeline clipId) true).inPoint,
                position :=
                  (resized c0 (position - getClipPosition x.timeline clipId) true).position,
                playtime := position - getClipPosition x.timeline clipId } := by
    rw [htb, findClip_modify, if_neg hne, hac]
  have hbn : ∃ cn, findClip b.2.timeline.clips x.timeline.nextId = some cn ∧ cn.state = c'.state
      ∧ cn.playtime = getClipPlaytime x.timeline clipId
          - (position - getClipPosition x.timeline clipId) := by
    refine ⟨{ c' with
        inPoint := (resized c' (getClipPlaytime x.timeline clipId
          - (position - getClipPosition x.timeline clipId)) false).inPoint,
        position := (resized c' (getClipPlaytime x.timeline clipId
          - (position - getClipPosition x.timeline clipId)) false).position,
        playtime := getClipPlaytime x.timeline clipId
          - (position - getClipPosition x.timeline clipId) }, ?_, rfl, rfl⟩
    rw [htb, findClip_modify, if_pos rfl, han]; rfl
  obtain ⟨cn, hcn, hcns, hcnp⟩ := hbn
  have htrk : getClipTrackId b.2.timeline clipId = c0.track := by
    unfold getClipTrackId Timeline.clip; rw [hbc]; rfl
  rw [andAlso_of_true hb1] at hres ⊢
  rw [htrk] at hres ⊢
  -- the move of the copy
  obtain ⟨cm, hcm, -, htm⟩ := requestClipMove_true E b.2 x.timeline.nextId _ _ true false hres
  rw [hcn] at hcm
  cases hcm
  generalize requestClipMove E b.2 x.timeline.nextId c0.track position true false = c
    at htm ⊢
  have hfc : findClip c.2.timeline.clips clipId = some
      { c0 with inPoint := (resized c0 (position - getClipPosition x.timeline clipId) true).inPoint,
                position :=
                  (resized c0 (position - getClipPosition x.timeline clipId) true).position,
                playtime := position - getClipPosition x.timeline clipId } := by
    rw [htm, findClip_modify, if_neg hne, hbc]
  have hfn : findClip c.2.timeline.clips x.timeline.nextId
      = some { cn with track := c0.track, position := position } := by
    rw [htm, findClip_modify, if_pos rfl, hcn]; rfl
  have hp0 : getClipPosition x.timeline clipId = c0.position := by
    unfold getClipPosition Timeline.clip; rw [hc0]; rfl
  have hd0 : getClipPlaytime x.timeline clipId = c0.playtime := by
    unfold getClipPlaytime Timeline.clip; rw [hc0]; rfl
  have ht0 : getClipTrackId x.timeline clipId = c0.track := by
    unfold getClipTrackId Timeline.clip; rw [hc0]; rfl
  have hs0 : clipState x.timeline clipId = c0.state := by
    unfold clipState Timeline.clip; rw [hc0]; rfl
  refine ⟨fun e => hne e.symm, ?_, ?_, ?_, ?_, ?_, ?_, ?_, ?_, ?_, ?_⟩
  · unfold isClip; rw [hn]; rfl
  · unfold getClipPosition Timeline.clip
    rw [hfc, hc0]
    simp [resized]
  · unfold getClipPlaytime Timeline.clip
    rw [hfc]
    simp [getClipPosition, Timeline.clip, hc0]
  · unfold getClipTrackId Timeline.clip
    rw [hfc, hc0]
    rfl
  · unfold clipState Timeline.clip
    rw [hfc, hc0]
    rfl
  · unfold getClipPosition Timeline.clip
    rw [hfn]
    rfl
  · have e : getClipPlaytime c.2.timeline x.timeline.nextId = cn.playtime := by
      unfold getClipPlaytime Timeline.clip; rw [hfn]; rfl
    rw [e, hcnp]; omega
  · rw [ht0]
    unfold getClipTrackId Timeline.clip
    rw [hfn]
    rfl
  · have e : clipState c.2.timeline x.timeline.nextId = cn.state := by
      unfold clipState Timeline.clip; rw [hfn]; rfl
    rw [e, hcns, hst]
  · have e : getClipPlaytime c.2.timeline x.timeline.nextId = cn.playtime := by
      unfold getClipPlaytime Timeline.clip; rw [hfn]; rfl
    have e2 : getClipPlaytime c.2.timeline clipId
        = position - getClipPosition x.timeline clipId := by
      unfold getClipPlaytime Timeline.clip; rw [hfc]; rfl
    rw [e, e2, hcnp]; omega

/-! ## `changeClipState` -/

theorem changeClipStateRedo_eq (E : Env) (clipId : Int) (status : ClipState) (s : Timeline) :
    TimelineFunctions.changeClipStateRedo E clipId status s = setClipState E s clipId status := by
  unfold TimelineFunctions.changeClipStateRedo replugAndRefresh
  dsimp only
  split <;> rfl

theorem changeClipStateUndo_eq (E : Env) (clipId : Int) (oldState : ClipState) (s : Timeline) :
    TimelineFunctions.changeClipStateUndo E clipId oldState s
      = setClipState E s clipId oldState := by
  unfold TimelineFunctions.changeClipStateUndo replugAndRefresh
  dsimp only
  split <;> rfl

theorem isClip_modify (t : Timeline) (id j : Int) (f : Clip → Clip) :
    isClip (t.modify id f) j = isClip t j := by
  unfold isClip Timeline.modify
  simp only [findClip_modifyClips]
  split
  · cases findClip t.clips j <;> rfl
  · rfl

theorem clipState_setClipState (E : Env) (s : Timeline) (clipId : Int) (st : ClipState)
    (h : (setClipState E s clipId st).1 = true) :
    clipState (setClipState E s clipId st).2 clipId = st
      ∧ isClip (setClipState E s clipId st).2 clipId = true := by
  unfold setClipState at h ⊢
  split at h
  · rename_i hc
    rw [if_pos hc]
    refine ⟨?_, ?_⟩
    · have h1 := hc.1
      unfold isClip at h1
      unfold clipState Timeline.clip Timeline.modify
      simp only [findClip_modifyClips, if_true]
      cases hfc : findClip s.clips clipId with
      | none => simp [hfc] at h1
      | some k => simp
    · simp only [isClip_modify]; exact hc.1
  · simp at h

theorem setClipState_success (E : Env) (s : Timeline) (clipId : Int) (st : ClipState) :
    (setClipState E s clipId st).1 = true
      ↔ (isClip s clipId = true ∧ E.veto (Request.setState clipId st) = false) := by
  unfold setClipState
  split
  · rename_i hc; simp [hc]
  · rename_i hc; simp [hc]

theorem replay_snoc (c : Command) (steps : List Bool) (d : Bool) (s : Timeline) :
    c.replay (steps ++ [d]) s
      = ((c.run d (c.replay steps s).2).1 && (c.replay steps s).1,
          (c.run d (c.replay steps s).2).2) := by
  unfold Command.replay
  rw [List.foldl_append]
  rfl

theorem replay_total (E : Env) (clipId : Int) (a b : ClipState) (c : Command)
    (hu : c.undo = TimelineFunctions.changeClipStateUndo E clipId a)
    (hr : c.redo = TimelineFunctions.changeClipStateRedo E clipId b)
    (ha : E.veto (Request.setState clipId a) = false)
    (hb : E.veto (Request.setState clipId b) = false) :
    ∀ (steps : List Bool) (s : Timeline), isClip s clipId = true →
      (c.replay steps s).1 = true ∧ isClip (c.replay steps s).2 clipId = true := by
  intro steps
  induction steps using List.reverseRecOn with
  | nil => intro s hs; exact ⟨rfl, hs⟩
  | append_singleton steps d ih =>
    intro s hs
    obtain ⟨h1, h2⟩ := ih s hs
    rw [replay_snoc]
    have hrun : (c.run d (c.replay steps s).2).1 = true
        ∧ isClip (c.run d (c.replay steps s).2).2 clipId = true := by
      cases d
      · have e : c.run false = c.undo := rfl
        rw [e, hu, changeClipStateUndo_eq]
        have hs := (setClipState_success E (c.replay steps s).2 clipId a).2 ⟨h2, ha⟩
        exact ⟨hs, (clipState_setClipState E _ clipId a hs).2⟩
      · have e : c.run true = c.redo := rfl
        rw [e, hr, changeClipStateRedo_eq]
        have hs := (setClipState_success E (c.replay steps s).2 clipId b).2 ⟨h2, hb⟩
        exact ⟨hs, (clipState_setClipState E _ clipId b hs).2⟩
    exact ⟨by simp [hrun.1, h1], hrun.2⟩

/-- C8: `changeClipState` with the clip's current state as target returns false,
leaves the timeline and the history as they are; with another target, when it
succeeds, the clip has the target state, exactly one entry ("Change clip
state") is appended to the history, and that entry is a round trip on the
clip's state: in any alternation of undo and redo that succeeds, the clip ends
in the state it had before the call after an undo and in the target state
after a redo, and every alternation succeeds on a timeline that holds the clip
when restoring the old state is not refused. -/
theorem changeClipState_round_trip (E : Env) (t : Timeline) (h : History) (clipId : Int)
    (status : ClipState) :
    (clipState t clipId = status →
      TimelineFunctions.changeClipState E t h clipId status = (false, t, h)) ∧
    (clipState t clipId ≠ status →
      (TimelineFunctions.changeClipState E t h clipId status).1 = true →
      clipState (TimelineFunctions.changeClipState E t h clipId status).2.1 clipId = status ∧
      ∃ c : Command,
        (TimelineFunctions.changeClipState E t h clipId status).2.2 = h ++ [c] ∧
        c.label = "Change clip state" ∧
        (∀ (steps : List Bool) (d : Bool) (s : Timeline),
          (c.replay (steps ++ [d]) s).1 = true →
          clipState (c.replay (steps ++ [d]) s).2 clipId
            = if d then status else clipState t clipId) ∧
        (E.veto (Request.setState clipId (clipState t clipId)) = false →
          ∀ (steps : List Bool) (s : Timeline), isClip s clipId = true →
            (c.replay steps s).1 = true)) := by
  refine ⟨?_, ?_⟩
  · intro he
    unfold TimelineFunctions.changeClipState
    simp [he]
  · intro hne hres
    unfold TimelineFunctions.changeClipState at hres ⊢
    simp only [hne, if_false] at hres ⊢
    rw [changeClipStateRedo_eq] at hres ⊢
    by_cases hs : (setClipState E t clipId status).1 = true
    · simp only [hs, if_true]
      refine ⟨(clipState_setClipState E t clipId status hs).1, ?_⟩
      refine ⟨{ label := "Change clip state",
                undo := TimelineFunctions.changeClipStateUndo E clipId (clipState t clipId),
                redo := TimelineFunctions.changeClipStateRedo E clipId status }, rfl, rfl, ?_, ?_⟩
      · intro steps d s hok
        rw [replay_snoc] at hok ⊢
        have hrun := (Bool.and_eq_true_iff.1 hok).1
        cases d
        · simp only [Command.run, Bool.false_eq_true, if_false] at hrun ⊢
          rw [changeClipStateUndo_eq] at hrun ⊢
          exact (clipState_setClipState E _ clipId _ hrun).1
        · simp only [Command.run, if_true] at hrun ⊢
          rw [changeClipStateRedo_eq] at hrun ⊢
          exact (clipState_setClipState E _ clipId _ hrun).1
      · intro hveto steps s hclip
        have hb := ((setClipState_success E t clipId status).1 hs).2
        exact (replay_total E clipId (clipState t clipId) status _ rfl rfl hveto hb
          steps s hclip).1
    · rw [if_neg hs] at hres
      simp at hres

/-! ## The user-facing cut -/

theorem wrapInt_of_isInt {v : Int} (h : IsInt v) : wrapInt v = v := by
  unfold IsInt at h
  unfold wrapInt
  omega

/-- For `int` operands with a non-negative duration, the span test of the
source (with its machine sum) accepts only items that really straddle the
position. -/
theorem straddles_of_test {s d position : Int} (hs : IsInt s) (hd : IsInt d) (hd0 : 0 ≤ d)
    (hp : IsInt position) (h : s < position ∧ wrapInt (s + d) > position) :
    s < position ∧ position < s + d := by
  unfold IsInt at hs hd hp
  unfold wrapInt at h
  omega

theorem requestClipCutLoop_no_straddle (E : Env) (position : Int) (l : List Int) (x : Tx)
    (count : Int) (hp : IsInt position)
    (hints : ∀ cid ∈ l, IsInt (getClipPosition x.timeline cid)
      ∧ IsInt (getClipPlaytime x.timeline cid) ∧ 0 ≤ getClipPlaytime x.timeline cid)
    (hno : ∀ cid ∈ l, ¬ straddles x.timeline cid position) :
    TimelineFunctions.requestClipCutLoop E position l x count
      = { completed := true, tx := x, count := count } := by
  induction l with
  | nil => rfl
  | cons cid rest ih =>
    have h1 := hno cid (List.mem_cons_self _ _)
    obtain ⟨i1, i2, i3⟩ := hints cid (List.mem_cons_self _ _)
    have h2 : ¬ (getClipPosition x.timeline cid < position
        ∧ wrapInt (getClipPosition x.timeline cid + getClipPlaytime x.timeline cid)
          > position) := by
      intro hc
      exact h1 (straddles_of_test i1 i2 i3 hp hc)
    unfold TimelineFunctions.requestClipCutLoop
    simp only [h2, if_false]
    exact ih (fun c hc => hints c (List.mem_cons_of_mem _ hc))
      (fun c hc => hno c (List.mem_cons_of_mem _ hc))

theorem requestClipCutLoop_count_ge (E : Env) (position : Int) (l : List Int) :
    ∀ (x : Tx) (count : Int),
      count ≤ (TimelineFunctions.requestClipCutLoop E position l x count).count := by
  induction l with
  | nil => intro x count; exact le_refl _
  | cons cid rest ih =>
    intro x count
    unfold TimelineFunctions.requestClipCutLoop
    dsimp only
    split
    · split
      · dsimp only; omega
      · have := ih (setInGroupOf (TimelineFunctions.requestClipCut E x cid position (-1)).2.2
          (TimelineFunctions.requestClipCut E x cid position (-1)).2.1 cid) (count + 1)
        omega
    · exact ih x count

theorem requestClipCutLoop_count_pos (E : Env) (position : Int) (l : List Int) (x : Tx)
    (count : Int)
    (hex : ∃ cid ∈ l, straddles x.timeline cid position
      ∧ IsInt (getClipPosition x.timeline cid + getClipPlaytime x.timeline cid)) :
    count < (TimelineFunctions.requestClipCutLoop E position l x count).count := by
  induction l with
  | nil => obtain ⟨c, hc, _⟩ := hex; cases hc
  | cons cid rest ih =>
    unfold TimelineFunctions.requestClipCutLoop
    dsimp only
    split
    · split
      · dsimp only; omega
      · have := requestClipCutLoop_count_ge E position rest
          (setInGroupOf (TimelineFunctions.requestClipCut E x cid position (-1)).2.2
            (TimelineFunctions.requestClipCut E x cid position (-1)).2.1 cid) (count + 1)
        omega
    · rename_i hns
      apply ih
      obtain ⟨c, hc, hs, hr⟩ := hex
      rcases List.mem_cons.1 hc with rfl | hc
      · exfalso
        apply hns
        rw [wrapInt_of_isInt hr]
        exact ⟨hs.1, hs.2⟩
      · exact ⟨c, hc, hs, hr⟩

/-- C1: the user-facing `requestClipCut(timeline, clipId, position)`.  When an item
of the group strictly straddles the position, with its end `start + duration`
an `int`, and all sub-steps succeed, the function returns true and appends
exactly one entry, labelled "Cut clip", to the history; whenever it returns
true it has appended exactly that one entry; when no item of the group strictly
straddles the position (the position and the items' starts and durations being
`int`s, the durations not negative) it returns false and leaves timeline and
history as they are. -/
theorem requestClipCutGroup_history (E : Env) (t : Timeline) (h : History)
    (clipId position : Int) :
    ((∃ cid ∈ getGroupElements t clipId, straddles t cid position
        ∧ IsInt (getClipPosition t cid + getClipPlaytime t cid)) →
      CutSubstepsSucceed E t clipId position →
      (TimelineFunctions.requestClipCutGroup E t h clipId position).1 = true ∧
      ∃ c : Command,
        (TimelineFunctions.requestClipCutGroup E t h clipId position).2.2 = h ++ [c] ∧
        c.label = "Cut clip") ∧
    ((TimelineFunctions.requestClipCutGroup E t h clipId position).1 = true →
      ∃ c : Command,
        (TimelineFunctions.requestClipCutGroup E t h clipId position).2.2 = h ++ [c] ∧
        c.label = "Cut clip") ∧
    (IsInt position →
      (∀ cid ∈ getGroupElements t clipId, IsInt (getClipPosition t cid)
        ∧ IsInt (getClipPlaytime t cid) ∧ 0 ≤ getClipPlaytime t cid) →
      (∀ cid ∈ getGroupElements t clipId, ¬ straddles t cid position) →
      TimelineFunctions.requestClipCutGroup E t h clipId position = (false, t, h)) := by
  have hentry : (TimelineFunctions.requestClipCutGroup E t h clipId position).1 = true →
      ∃ c : Command,
        (TimelineFunctions.requestClipCutGroup E t h clipId position).2.2 = h ++ [c] ∧
        c.label = "Cut clip" := by
    intro hres
    unfold TimelineFunctions.requestClipCutGroup at hres ⊢
    dsimp only at hres ⊢
    split at hres
    · simp at hres
    · rename_i hdone
      rw [if_neg hdone]
      split at hres
      · rename_i hg
        rw [if_pos hg]
        split at hres
        · simp at hres
        · rename_i hs
          rw [if_neg hs]
          have hc : (TimelineFunctions.requestClipCutLoop E position (getGroupElements t clipId)
              (Tx.start t) 0).count > 0 := hg.1
          simp only [hc, if_true]
          exact ⟨_, rfl, rfl⟩
      · rename_i hg
        rw [if_neg hg]
        have hc : (TimelineFunctions.requestClipCutLoop E position (getGroupElements t clipId)
            (Tx.start t) 0).count > 0 := by simpa using hres
        simp only [hc, if_true]
        exact ⟨_, rfl, rfl⟩
  have htrue : (∃ cid ∈ getGroupElements t clipId, straddles t cid position
        ∧ IsInt (getClipPosition t cid + getClipPlaytime t cid)) →
      CutSubstepsSucceed E t clipId position →
      (TimelineFunctions.requestClipCutGroup E t h clipId position).1 = true := by
    intro hex hsub
    obtain ⟨hdone, hsplit⟩ := hsub
    have hpos := requestClipCutLoop_count_pos E position (getGroupElements t clipId)
      (Tx.start t) 0 hex
    unfold TimelineFunctions.requestClipCutGroup
    dsimp only
    rw [if_neg (by simp [hdone])]
    split
    · rename_i hg
      rw [if_neg (by simp [hsplit hg.2])]
      simp [hpos]
    · simp [hpos]
  refine ⟨fun hex hsub => ⟨htrue hex hsub, hentry (htrue hex hsub)⟩, hentry, ?_⟩
  intro hp hints hno
  unfold TimelineFunctions.requestClipCutGroup
  dsimp only
  rw [requestClipCutLoop_no_straddle E position _ (Tx.start t) 0 hp hints hno]
  simp [Tx.start]

/-! ## `requestClipCopy` -/

theorem sameDocument_nextId (t0 : Timeline) (m : Int) :
    Timeline.SameDocument { t0 with nextId := m } t0 :=
  ⟨rfl, rfl, rfl, rfl⟩

theorem rollback_sameDocument {t0 : Timeline} {x : Tx} (h : Rollback t0 x) :
    (x.undo x.timeline).2.SameDocument t0 := by
  have e : ({ x.timeline with nextId := x.timeline.nextId } : Timeline) = x.timeline := rfl
  have := h x.timeline.nextId
  rw [e] at this
  rw [this]
  exact sameDocument_nextId _ _

theorem built_rollback {t0 : Timeline} {x y : Tx} {c : Clip} (hb : Built x y c)
    (hr : Rollback t0 x) : Rollback t0 y :=
  rollback_of_undoes hb.1 (hb.2 t0 hr)

theorem built_inv {t0 : Timeline} {x y : Tx} {c : Clip} (hb : Built x y c)
    (hinv : CopyInv t0 x) : CopyInv t0 y := by
  obtain ⟨hf, hr, htk, hbin, hfind⟩ := hinv
  refine ⟨?_, built_rollback hb hr, ?_, ?_, ?_⟩
  · rw [hb.1]
    refine ⟨?_, ?_⟩
    · show 0 ≤ x.timeline.nextId + 1
      have := hf.1
      omega
    · intro p hp
      have hp' : p ∈ x.timeline.clips ++ [(x.timeline.nextId, c)] := hp
      rcases List.mem_append.1 hp' with h | h
      · have := hf.2 p h
        show 0 ≤ p.1 ∧ p.1 < x.timeline.nextId + 1
        omega
      · have hpe : p = (x.timeline.nextId, c) := by simpa using h
        have := hf.1
        show 0 ≤ p.1 ∧ p.1 < x.timeline.nextId + 1
        rw [hpe]
        dsimp only
        omega
  · rw [hb.1]; exact htk
  · rw [hb.1]; exact hbin
  · intro j k hj
    rw [hb.1]
    exact slot_find_registered _ _ _ _ _ _ (hfind j k hj)

/-- Whether a creation succeeds depends on the media of the document, the
requested media and state, and the veto only. -/
theorem requestClipCreation_congr (E : Env) (x y : Tx) (binClipId i j : Int)
    (state : ClipState) (hbin : x.timeline.bin = y.timeline.bin) :
    (requestClipCreation E x binClipId i state).1
      = (requestClipCreation E y binClipId j state).1 := by
  unfold requestClipCreation
  rw [hbin]
  cases binLength y.timeline.bin binClipId with
  | none => rfl
  | some len =>
    dsimp only
    by_cases h1 : E.veto (Request.create binClipId state) = true
    · rw [if_pos h1, if_pos h1]
    · rw [if_neg h1, if_neg h1]

theorem registered_of_isClip {t : Timeline} {id : Int} (h : isClip t id = true) :
    ∃ c, findClip t.clips id = some c := by
  unfold isClip at h
  cases hc : findClip t.clips id with
  | none => rw [hc] at h; simp at h
  | some c => exact ⟨c, rfl⟩

/-- Inside the loop of `requestClipCopy` the creation of the copy of an item
succeeds when it succeeds on the document at the start of the call. -/
theorem requestClipCreation_of_inv (E : Env) (t0 : Timeline) (x : Tx) (id : Int)
    (hinv : CopyInv t0 x) (hc : CopyCreated E t0 id) :
    (requestClipCreation E x (getClipBinId x.timeline id) (-1)
      (clipState x.timeline id)).1 = true := by
  obtain ⟨hclip, hcr⟩ := hc
  obtain ⟨c0, hc0⟩ := registered_of_isClip hclip
  have hx := hinv.2.2.2.2 id c0 hc0
  have hb : getClipBinId x.timeline id = getClipBinId t0 id := by
    unfold getClipBinId Timeline.clip
    rw [hx, hc0]
  have hs : clipState x.timeline id = clipState t0 id := by
    unfold clipState Timeline.clip
    rw [hx, hc0]
  rw [hb, hs, requestClipCreation_congr E x (Tx.start t0) _ (-1) (-1) _ hinv.2.2.2.1]
  exact hcr

theorem requestClipCopyStep_built (E : Env) (deltaTrack deltaPos : Int) (x : Tx) (id : Int)
    (hf : x.timeline.Fresh)
    (hcr : (requestClipCreation E x (getClipBinId x.timeline id) (-1)
      (clipState x.timeline id)).1 = true) :
    ∃ c, Built x (TimelineFunctions.requestClipCopyStep E deltaTrack deltaPos x id).2.2 c := by
  obtain ⟨hid, c', hbuilt, -, -, -⟩ := copyClip_created E x id (-1) _ hf hcr
  unfold TimelineFunctions.requestClipCopyStep
  dsimp only
  rw [hid]
  generalize TimelineFunctions.copyClip E x id (-1) (clipState x.timeline id) = r at hbuilt ⊢
  split
  · dsimp only
    cases hres : (r.1 && x.timeline.nextId != -1) with
    | false =>
      rw [andAlso_of_false (r := (false, r.2.2)) rfl]
      exact ⟨c', hbuilt⟩
    | true =>
      rw [andAlso_mk_true]
      obtain ⟨c'', hb'', -⟩ := built_move E x r.2.2 c' _ _ true false hf hbuilt
      exact ⟨c'', hb''⟩
  · exact ⟨c', hbuilt⟩

theorem requestClipCopyStep_range (E : Env) (deltaTrack deltaPos : Int) (t0 : Timeline)
    (x : Tx) (id : Int) (hinv : CopyInv t0 x) (hc : CopyCreated E t0 id)
    (hout : ¬ (0 ≤ getTrackPosition t0 (getClipTrackId t0 id) + deltaTrack
      ∧ getTrackPosition t0 (getClipTrackId t0 id) + deltaTrack < getTracksCount t0)) :
    (TimelineFunctions.requestClipCopyStep E deltaTrack deltaPos x id).1 = false := by
  have hcr := requestClipCreation_of_inv E t0 x id hinv hc
  obtain ⟨hid, c', hbuilt, -, -, -⟩ := copyClip_created E x id (-1) _ hinv.1 hcr
  obtain ⟨c0, hc0⟩ := registered_of_isClip hc.1
  have hy := (built_inv hbuilt hinv)
  have hfy := hy.2.2.2.2 id c0 hc0
  have htrack : getClipTrackId (TimelineFunctions.copyClip E x id (-1)
      (clipState x.timeline id)).2.2.timeline id = getClipTrackId t0 id := by
    unfold getClipTrackId Timeline.clip
    rw [hfy, hc0]
  have hpos : ∀ tr, getTrackPosition (TimelineFunctions.copyClip E x id (-1)
      (clipState x.timeline id)).2.2.timeline tr = getTrackPosition t0 tr := by
    intro tr; unfold getTrackPosition; rw [hy.2.2.1]
  have hcount : getTracksCount (TimelineFunctions.copyClip E x id (-1)
      (clipState x.timeline id)).2.2.timeline = getTracksCount t0 := by
    unfold getTracksCount; rw [hy.2.2.1]
  unfold TimelineFunctions.requestClipCopyStep
  dsimp only
  rw [htrack, hpos, hcount]
  have hout' : ¬ (getTrackPosition t0 (getClipTrackId t0 id) + deltaTrack ≥ 0
      ∧ getTrackPosition t0 (getClipTrackId t0 id) + deltaTrack < getTracksCount t0) := by
    intro h; exact hout ⟨h.1, h.2⟩
  rw [if_neg hout']

theorem requestClipCopyStep_spec (E : Env) (deltaTrack deltaPos : Int) (t0 : Timeline)
    (x : Tx) (id : Int) (hinv : CopyInv t0 x) (hc : CopyCreated E t0 id) :
    ((TimelineFunctions.requestClipCopyStep E deltaTrack deltaPos x id).1 = false →
      Timeline.SameDocument
        ((TimelineFunctions.requestClipCopyStep E deltaTrack deltaPos x id).2.2.undo
          (TimelineFunctions.requestClipCopyStep E deltaTrack deltaPos x id).2.2.timeline).2
        t0) ∧
    CopyInv t0 (TimelineFunctions.requestClipCopyStep E deltaTrack deltaPos x id).2.2 := by
  have hcr := requestClipCreation_of_inv E t0 x id hinv hc
  obtain ⟨c, hb⟩ := requestClipCopyStep_built E deltaTrack deltaPos x id hinv.1 hcr
  have hinv' := built_inv hb hinv
  exact ⟨fun _ => rollback_sameDocument hinv'.2.1, hinv'⟩

theorem requestClipCopyLoop_spec (E : Env) (deltaTrack deltaPos : Int) (t0 : Timeline)
    (l : List Int) (hall : ∀ id ∈ l, CopyCreated E t0 id) :
    ∀ (x : Tx) (mapping : List (Int × Int)), CopyInv t0 x →
      ((TimelineFunctions.requestClipCopyLoop E deltaTrack deltaPos l x mapping).completed = false →
        Timeline.SameDocument
          (TimelineFunctions.requestClipCopyLoop E deltaTrack deltaPos l x mapping).tx.timeline
          t0) ∧
      ((TimelineFunctions.requestClipCopyLoop E deltaTrack deltaPos l x mapping).completed = true →
        CopyInv t0 (TimelineFunctions.requestClipCopyLoop E deltaTrack deltaPos l x mapping).tx) ∧
      ((∃ id ∈ l,
          ¬ (0 ≤ getTrackPosition t0 (getClipTrackId t0 id) + deltaTrack
            ∧ getTrackPosition t0 (getClipTrackId t0 id) + deltaTrack < getTracksCount t0)) →
        (TimelineFunctions.requestClipCopyLoop E deltaTrack deltaPos l x mapping).completed
          = false) := by
  induction l with
  | nil =>
    intro x mapping hinv
    refine ⟨fun h => ?_, fun _ => hinv, fun h => ?_⟩
    · simp [TimelineFunctions.requestClipCopyLoop] at h
    · obtain ⟨id, hid, _⟩ := h; cases hid
  | cons id rest ih =>
    intro x mapping hinv
    have hc := hall id (List.mem_cons_self _ _)
    obtain ⟨hundo, hinv'⟩ := requestClipCopyStep_spec E deltaTrack deltaPos t0 x id hinv hc
    unfold TimelineFunctions.requestClipCopyLoop
    dsimp only
    by_cases hs : (TimelineFunctions.requestClipCopyStep E deltaTrack deltaPos x id).1 = false
    · rw [if_pos hs]
      exact ⟨fun _ => hundo hs, fun h => by simp at h, fun _ => rfl⟩
    · rw [if_neg hs]
      obtain ⟨i1, i2, i3⟩ := ih (fun j hj => hall j (List.mem_cons_of_mem _ hj))
        (TimelineFunctions.requestClipCopyStep E deltaTrack deltaPos x id).2.2
        (TimelineFunctions.mapAssign mapping id
          (TimelineFunctions.requestClipCopyStep E deltaTrack deltaPos x id).2.1) hinv'
      refine ⟨i1, i2, fun hex => ?_⟩
      obtain ⟨j, hj, hout⟩ := hex
      rcases List.mem_cons.1 hj with rfl | hj
      · exact absurd (requestClipCopyStep_range E deltaTrack deltaPos t0 x j hinv hc hout) hs
      · exact i3 ⟨j, hj, hout⟩

theorem copyGroups_false (E : Env) (x : Tx) (mapping : List (Int × Int))
    (h : (copyGroups E x mapping).1 = false) : copyGroups E x mapping = (false, x) := by
  unfold copyGroups at h ⊢
  dsimp only at h ⊢
  split
  · rfl
  · rename_i hc
    rw [if_neg hc] at h
    simp at h

/-- The statement of C1 at the group of two stacked clips: a cut at 40 meets both
clips (their ends are `int`s), every sub-step succeeds, the call returns true
with the single entry "Cut clip"; a cut at 150 meets no clip and changes
nothing. -/
theorem requestClipCutGroup_history_witness :
    (∃ cid ∈ getGroupElements Sample.stacked 1, straddles Sample.stacked cid 40
      ∧ IsInt (getClipPosition Sample.stacked cid + getClipPlaytime Sample.stacked cid)) ∧
    CutSubstepsSucceed Env.permissive Sample.stacked 1 40 ∧
    ((TimelineFunctions.requestClipCutGroup Env.permissive Sample.stacked [] 1 40).1 = true ∧
      ∃ c : Command,
        (TimelineFunctions.requestClipCutGroup Env.permissive Sample.stacked [] 1 40).2.2
          = [] ++ [c] ∧ c.label = "Cut clip") ∧
    IsInt 150 ∧
    (∀ cid ∈ getGroupElements Sample.stacked 1, IsInt (getClipPosition Sample.stacked cid)
      ∧ IsInt (getClipPlaytime Sample.stacked cid) ∧ 0 ≤ getClipPlaytime Sample.stacked cid) ∧
    (∀ cid ∈ getGroupElements Sample.stacked 1, ¬ straddles Sample.stacked cid 150) ∧
    TimelineFunctions.requestClipCutGroup Env.permissive Sample.stacked [] 1 150
      = (false, Sample.stacked, []) :=
  ⟨by decide, by decide,
    (requestClipCutGroup_history Env.permissive Sample.stacked [] 1 40).1
      (by decide) (by decide),
    by decide, by decide, by decide,
    (requestClipCutGroup_history Env.permissive Sample.stacked [] 1 150).2.2
      (by decide) (by decide) (by decide)⟩

/-- The range hypothesis of C1 is needed: for the clip at 2147483600 with 100
frames the sum of source line 82 wraps to a negative `int`, so a cut at
2147483640, which lies inside the span, meets no item; the loop runs to its
end, no split is requested, and the call returns false with timeline and
history as they were. -/
theorem requestClipCutGroup_wrapped_end :
    straddles Sample.pastEnd 1 2147483640 ∧
    ¬ IsInt (getClipPosition Sample.pastEnd 1 + getClipPlaytime Sample.pastEnd 1) ∧
    CutSubstepsSucceed Env.permissive Sample.pastEnd 1 2147483640 ∧
    (TimelineFunctions.requestClipCutGroup Env.permissive Sample.pastEnd [] 1 2147483640).1
      = false ∧
    Timeline.SameDocument
      (TimelineFunctions.requestClipCutGroup Env.permissive Sample.pastEnd [] 1 2147483640).2.1
      Sample.pastEnd ∧
    (TimelineFunctions.requestClipCutGroup Env.permissive Sample.pastEnd [] 1
      2147483640).2.2.length = 0 := by
  decide

/-- The statement of C2 at the clip spanning `[0, 100)`, cut at 40. -/
theorem requestClipCut_spans_witness :
    Sample.single.Fresh ∧
    getClipPosition Sample.single 1 < 40 ∧
    40 < getClipPosition Sample.single 1 + getClipPlaytime Sample.single 1 ∧
    (TimelineFunctions.requestClipCut Env.permissive (Tx.start Sample.single) 1 40 (-1)).1 = true ∧
    getClipPlaytime
      (TimelineFunctions.requestClipCut Env.permissive (Tx.start Sample.single) 1 40
        (-1)).2.2.timeline 1 = 40 - getClipPosition Sample.single 1 ∧
    getClipPosition
      (TimelineFunctions.requestClipCut Env.permissive (Tx.start Sample.single) 1 40
        (-1)).2.2.timeline
      (TimelineFunctions.requestClipCut Env.permissive (Tx.start Sample.single) 1 40 (-1)).2.1
      = 40 :=
  ⟨by decide, by decide, by decide, by decide,
    (requestClipCut_spans Env.permissive (Tx.start Sample.single) 1 40 (-1)
      (by decide) (by decide) (by decide) (by decide)).2.2.2.1,
    (requestClipCut_spans Env.permissive (Tx.start Sample.single) 1 40 (-1)
      (by decide) (by decide) (by decide) (by decide)).2.2.2.2.2.2.1⟩

/-- The statement of C8 at a clip in state `Original`: the target `Original` is
refused, the target `VideoOnly` is set, and undo, redo, undo (, redo) of the
registered entry end in `Original` (`VideoOnly`). -/
theorem changeClipState_round_trip_witness :
    clipState Sample.single 1 = ClipState.Original ∧
    TimelineFunctions.changeClipState Env.permissive Sample.single [] 1 ClipState.Original
      = (false, Sample.single, []) ∧
    clipState Sample.single 1 ≠ ClipState.VideoOnly ∧
    (TimelineFunctions.changeClipState Env.permissive Sample.single [] 1
      ClipState.VideoOnly).1 = true ∧
    clipState (TimelineFunctions.changeClipState Env.permissive Sample.single [] 1
      ClipState.VideoOnly).2.1 1 = ClipState.VideoOnly ∧
    ∃ c : Command,
      (TimelineFunctions.changeClipState Env.permissive Sample.single [] 1
        ClipState.VideoOnly).2.2 = [] ++ [c] ∧
      c.label = "Change clip state" ∧
      (c.replay [false, true, false] Sample.single).1 = true ∧
      clipState (c.replay [false, true, false] Sample.single).2 1 = ClipState.Original ∧
      clipState (c.replay [false, true, false, true] Sample.single).2 1
        = ClipState.VideoOnly := by
  refine ⟨by decide, ?_, by decide, by decide, ?_⟩
  · exact (changeClipState_round_trip Env.permissive Sample.single [] 1 ClipState.Original).1
      (by decide)
  · obtain ⟨h1, c, h2, h3, h4, h5⟩ :=
      (changeClipState_round_trip Env.permissive Sample.single [] 1 ClipState.VideoOnly).2
        (by decide) (by decide)
    have h6 := h5 (by decide)
    refine ⟨h1, c, h2, h3, h6 _ _ (by decide), ?_, ?_⟩
    · exact h4 [false, true] false Sample.single (h6 _ _ (by decide))
    · exact h4 [false, true, false] true Sample.single (h6 _ _ (by decide))

/-- C3 at its boundary values: for the clip `1` spanning `[0, 100)`, the cut of
one item at position 0 (the start) and at position 100 (start + duration) is not
stopped by the guard: it returns false, but only after a copy has been created
and registered under the new id 2, so that the timeline has changed. -/
theorem requestClipCut_boundary_creates_copy :
    (TimelineFunctions.requestClipCut Env.permissive (Tx.start Sample.single) 1 0 (-1)).1 = false ∧
    isClip Sample.single 2 = false ∧
    isClip (TimelineFunctions.requestClipCut Env.permissive (Tx.start Sample.single) 1 0
      (-1)).2.2.timeline 2 = true ∧
    (TimelineFunctions.requestClipCut Env.permissive (Tx.start Sample.single) 1 100 (-1)).1
      = false ∧
    isClip (TimelineFunctions.requestClipCut Env.permissive (Tx.start Sample.single) 1 100
      (-1)).2.2.timeline 2 = true ∧
    (TimelineFunctions.requestClipCut Env.permissive (Tx.start Sample.single) 1 100
      (-1)).2.2.timeline ≠ Sample.single := by
  decide

/-- C5 at two listed tracks: with the clip `1` at `[200, 300)` and the zone
`[30, 70)`, `extractZone` on the tracks 0 and 1 succeeds and leaves the clip at
120, that is 80 = 2 * 40 frames earlier; on the track 0 alone it leaves it at
160. -/
theorem extractZone_two_tracks_double_shift :
    (TimelineFunctions.extractZone Env.permissive Sample.late [] [0, 1]
      { x := 30, y := 70 } false).1 = true ∧
    getClipPosition (TimelineFunctions.extractZone Env.permissive Sample.late [] [0, 1]
      { x := 30, y := 70 } false).2.1 1 = 120 ∧
    getClipPosition (TimelineFunctions.extractZone Env.permissive Sample.late [] [0]
      { x := 30, y := 70 } false).2.1 1 = 160 := by
  decide

/-- C6 at `requestClipCopy` and `requestSplitAudio`: `requestClipCopy` never
appends to the history, whatever it returns; copying the group of the clips
`1` and `2` to the next track succeeds and appends nothing; splitting the
audio of that group succeeds and leaves more than one entry, among them
"Change clip state" and "Split Audio". -/
theorem requestClipCopy_registers_nothing :
    (∀ (E : Env) (t : Timeline) (h : History) (clipId trackId position : Int),
      (TimelineFunctions.requestClipCopy E t h clipId trackId position).2.2 = h) ∧
    (TimelineFunctions.requestClipCopy Env.permissive Sample.inLine [] 1 1 0).1 = true ∧
    (TimelineFunctions.requestClipCopy Env.permissive Sample.inLine [] 1 1 0).2.2.length = 0 ∧
    (TimelineFunctions.requestSplitAudio Env.permissive Sample.inLine [] 1).1 = true ∧
    1 < (TimelineFunctions.requestSplitAudio Env.permissive Sample.inLine [] 1).2.2.length ∧
    "Change clip state" ∈
      (TimelineFunctions.requestSplitAudio Env.permissive Sample.inLine [] 1).2.2.map
        Command.label ∧
    "Split Audio" ∈
      (TimelineFunctions.requestSplitAudio Env.permissive Sample.inLine [] 1).2.2.map
        Command.label := by
  refine ⟨?_, by decide⟩
  intro E t h clipId trackId position
  unfold TimelineFunctions.requestClipCopy
  dsimp only
  split
  · rfl
  · split <;> rfl

/-- C7: `extractZone` and `insertZone` append one entry to the history on every
return, also when they return false; and at failing runs, all on the clip `1`
at `[0, 50)`, changes stay applied.  `extractZone` with the
zone `[30, 70)` returns false (no item lies after the zone), yet one entry is
appended to the history and the clip stays cut to 30 frames.  `insertZone`
without overwrite at frame 60 returns false (no item lies after the frame), yet
the new clip `2` is inserted and one entry is appended.  `insertZone` with
overwrite and a media id the bin does not hold returns true although the clip
insertion failed, appends an entry and leaves the clip cut to 20 frames. -/
theorem extractZone_failure_keeps_changes :
    (∀ (E : Env) (t : Timeline) (h : History) (tracks : List Int)
        (zone : TimelineFunctions.QPoint) (liftOnly : Bool),
      ∃ c : Command, (TimelineFunctions.extractZone E t h tracks zone liftOnly).2.2 = h ++ [c]) ∧
    (∀ (E : Env) (t : Timeline) (h : History) (trackId binId insertFrame : Int)
        (zone : TimelineFunctions.QPoint) (overwrite : Bool),
      ∃ c : Command,
        (TimelineFunctions.insertZone E t h trackId binId insertFrame zone overwrite).2.2.1
          = h ++ [c]) ∧
    (TimelineFunctions.extractZone Env.permissive Sample.short [] [0]
      { x := 30, y := 70 } false).1 = false ∧
    (TimelineFunctions.extractZone Env.permissive Sample.short [] [0]
      { x := 30, y := 70 } false).2.2.length = 1 ∧
    getClipPlaytime (TimelineFunctions.extractZone Env.permissive Sample.short [] [0]
      { x := 30, y := 70 } false).2.1 1 = 30 ∧
    getClipPlaytime Sample.short 1 = 50 ∧
    (TimelineFunctions.insertZone Env.permissive Sample.short [] 0 7 60
      { x := 30, y := 70 } false).1 = false ∧
    (TimelineFunctions.insertZone Env.permissive Sample.short [] 0 7 60
      { x := 30, y := 70 } false).2.2.1.length = 1 ∧
    isClip Sample.short 2 = false ∧
    isClip (TimelineFunctions.insertZone Env.permissive Sample.short [] 0 7 60
      { x := 30, y := 70 } false).2.1 2 = true ∧
    (TimelineFunctions.insertZone Env.permissive Sample.short [] 0 9 20
      { x := 30, y := 70 } true).2.2.2 = false ∧
    (TimelineFunctions.insertZone Env.permissive Sample.short [] 0 9 20
      { x := 30, y := 70 } true).1 = true ∧
    (TimelineFunctions.insertZone Env.permissive Sample.short [] 0 9 20
      { x := 30, y := 70 } true).2.2.1.length = 1 ∧
    getClipPlaytime (TimelineFunctions.insertZone Env.permissive Sample.short [] 0 9 20
      { x := 30, y := 70 } true).2.1 1 = 20 := by
  refine ⟨fun _ _ _ _ _ _ => ⟨_, rfl⟩, fun _ _ _ _ _ _ _ _ => ⟨_, rfl⟩, by decide⟩

/-- C9 at a group of two: splitting the audio of the group of the clips `1` and
`2` through its member `1` succeeds, but the member `2` keeps its state
(it is not video-only), while `1` is video-only. -/
theorem requestSplitAudio_flips_only_representative :
    getGroupElements Sample.inLine 1 = [1, 2] ∧
    (TimelineFunctions.requestSplitAudio Env.permissive Sample.inLine [] 1).1 = true ∧
    clipState (TimelineFunctions.requestSplitAudio Env.permissive Sample.inLine [] 1).2.1 1
      = ClipState.VideoOnly ∧
    clipState (TimelineFunctions.requestSplitAudio Env.permissive Sample.inLine [] 1).2.1 2
      = ClipState.Original := by
  decide

/-- C10 at a failing move: after the spacer was started at position 50 on the
row of three clips (which groups the clips `2` and `3` and returns `2`), ending
it with a drop 50 frames to the left of the start fails (the clip `2` would
meet the clip `1`): the function returns false and appends nothing to the
history, but the group `5` it created in its undoable part is still there. -/
theorem requestSpacerEndOperation_failure_keeps_group :
    (TimelineFunctions.requestSpacerStartOperation Env.permissive Sample.row [] 0 50).1 = 2 ∧
    (TimelineFunctions.requestSpacerStartOperation Env.permissive Sample.row [] 0 50).2.1.groups
      = [(2, 4), (3, 4)] ∧
    (TimelineFunctions.requestSpacerEndOperation Env.permissive
      (TimelineFunctions.requestSpacerStartOperation Env.permissive Sample.row [] 0 50).2.1
      [] 2 100 50).1 = false ∧
    (TimelineFunctions.requestSpacerEndOperation Env.permissive
      (TimelineFunctions.requestSpacerStartOperation Env.permissive Sample.row [] 0 50).2.1
      [] 2 100 50).2.2.length = 0 ∧
    (TimelineFunctions.requestSpacerEndOperation Env.permissive
      (TimelineFunctions.requestSpacerStartOperation Env.permissive Sample.row [] 0 50).2.1
      [] 2 100 50).2.1.groups = [(2, 5), (3, 5)] ∧
    isGroup (TimelineFunctions.requestSpacerEndOperation Env.permissive
      (TimelineFunctions.requestSpacerStartOperation Env.permissive Sample.row [] 0 50).2.1
      [] 2 100 50).2.1 5 = true := by
  decide

end Kdenlive
